import Mathlib

/-!
Shallow embedding of the inventory / shift / invoicing core of the
Thai-Smart point-of-sale application (MongoDB document store accessed
through Mongoose, tRPC routers on top).

Collections are modelled as Lean lists of records, MongoDB document ids
as natural numbers handed out by a monotone counter, money amounts as
rationals, and timestamps / normalized dates as natural numbers supplied
by the caller (the embedding of `new Date()` at the call sites).
Every mutating operation returns its result together with the database
state, so that partial writes made before a thrown error stay visible.
-/

namespace ThaiSmart

/-! ### Enumerations (src/server/models) -/

inductive MovementType
  | IN
  | OUT
deriving DecidableEq

inductive MovementSource
  | SALE
  | PURCHASE
  | ADJUST
deriving DecidableEq

inductive PaymentType
  | cash
  | credit
deriving DecidableEq

inductive ShiftStatus
  | opened
  | closed
deriving DecidableEq

inductive InvStatus
  | issued
  | cancelled
deriving DecidableEq

/-! ### Records (src/server/models) -/

structure Product where
  id : Nat
  userId : Nat
  name : String
  stock : Int
deriving DecidableEq

structure StockMovement where
  id : Nat
  productId : Nat
  type : MovementType
  quantity : Nat
  source : MovementSource
  note : Option String
deriving DecidableEq

structure Sale where
  id : Nat
  userId : Nat
  customerId : Option Nat
  totalAmount : ℚ
  paymentType : PaymentType
  vatRate : ℚ
  vatAmount : ℚ
  subtotal : ℚ
  totalWithVat : ℚ
  createdAt : Nat
deriving DecidableEq

structure SaleItem where
  saleId : Nat
  productId : Nat
  productName : String
  quantity : Nat
  unitPrice : ℚ
  totalPrice : ℚ
deriving DecidableEq

structure Customer where
  id : Nat
  userId : Nat
  name : String
  phone : Option String
  totalDebt : ℚ
deriving DecidableEq

structure Shift where
  id : Nat
  userId : Nat
  shiftNumber : Nat
  shiftDate : Nat
  startTime : Nat
  endTime : Option Nat
  openingCash : ℚ
  closingCash : Option ℚ
  expectedCash : ℚ
  actualCash : Option ℚ
  cashDifference : Option ℚ
  totalSales : ℚ
  cashSales : ℚ
  creditSales : ℚ
  saleCount : Nat
  status : ShiftStatus
  notes : Option String
deriving DecidableEq

structure FullTaxInvoice where
  id : Nat
  userId : Nat
  saleId : Nat
  invoiceNumber : String
  sellerName : String
  sellerAddress : String
  sellerTaxId : String
  buyerName : String
  buyerAddress : String
  buyerTaxId : Option String
  subtotal : ℚ
  vatAmount : ℚ
  totalWithVat : ℚ
  issuedDate : Nat
  status : InvStatus
deriving DecidableEq

structure Settings where
  vatEnabled : Bool
  sellerName : String
  sellerAddress : String
  sellerTaxId : String
deriving DecidableEq

/-- The whole document store. `nextId` is the id allocator (MongoDB
ObjectIds are generated monotonically increasing). `settings` is the
singleton collection (`none` = the collection is still empty). -/
structure DB where
  products : List Product
  movements : List StockMovement
  sales : List Sale
  saleItems : List SaleItem
  customers : List Customer
  shifts : List Shift
  invoices : List FullTaxInvoice
  settings : Option Settings
  nextId : Nat
deriving DecidableEq

/-! ### Generic MongoDB single-document operations -/

/-- Model of `findOneAndUpdate(filter, update, { new: true })`: update the
first document satisfying the filter and return the updated document. -/
def findOneAndUpdate (flt : α → Bool) (upd : α → α) : List α → Option α × List α
  | [] => (none, [])
  | x :: xs =>
    if flt x then (some (upd x), upd x :: xs)
    else
      let r := findOneAndUpdate flt upd xs
      (r.1, x :: r.2)

/-- Model of `deleteOne(filter)`: remove the first document satisfying the
filter. -/
def deleteOne (flt : α → Bool) : List α → List α
  | [] => []
  | x :: xs => if flt x then xs else x :: deleteOne flt xs

/-! ### Stock ledger (src/server/db.ts, adjustProductStock) -/

inductive StockError
  | invalidQuantity
  | insufficientStock
  | productNotFound
deriving DecidableEq

structure AdjustStockInput where
  productId : Nat
  quantityChange : Int
  source : MovementSource
  note : Option String
deriving DecidableEq

/-- The filter of the conditional update in `adjustProductStock`:
always `{ _id: productId }`, and additionally `{ stock: { $gte: quantity } }`
when the delta is negative. -/
def adjustFilter (i : AdjustStockInput) (p : Product) : Bool :=
  if i.quantityChange < 0 then
    p.id == i.productId && decide ((i.quantityChange.natAbs : Int) ≤ p.stock)
  else
    p.id == i.productId

/-- The update of the conditional update in `adjustProductStock`:
`{ $inc: { stock: quantityChange } }`. -/
def adjustUpd (i : AdjustStockInput) (p : Product) : Product :=
  { p with stock := p.stock + i.quantityChange }

/-- Embedding of `adjustProductStock` (src/server/db.ts:370).  In the
`Int` model every number is finite, so the `Number.isFinite` half of the
input check is vacuous and only the non-zero check remains. -/
def adjustProductStock (db : DB) (i : AdjustStockInput) :
    Except StockError Product × DB :=
  if i.quantityChange == 0 then (.error .invalidQuantity, db)
  else
    match findOneAndUpdate (adjustFilter i) (adjustUpd i) db.products with
    | (none, _) =>
      if i.quantityChange < 0 then (.error .insufficientStock, db)
      else (.error .productNotFound, db)
    | (some p, prods) =>
      let mov : StockMovement :=
        { id := db.nextId
          productId := i.productId
          type := if 0 < i.quantityChange then .IN else .OUT
          quantity := i.quantityChange.natAbs
          source := i.source
          note := i.note }
      (.ok p,
        { db with
            products := prods
            movements := mov :: db.movements
            nextId := db.nextId + 1 })

/-- Embedding of `deleteProduct` (src/server/db.ts:335): a hard
`deleteOne({ _id, userId })`. -/
def deleteProduct (db : DB) (id userId : Nat) : DB :=
  { db with products := deleteOne (fun p => p.id == id && p.userId == userId) db.products }

/-! ### Stock movement listing (src/server/db.ts, getStockMovementsByUser) -/

structure MovementsQuery where
  userId : Nat
  limit : Option Nat
  cursor : Option Nat
  productId : Option Nat
deriving DecidableEq

def insertByIdDesc (m : StockMovement) : List StockMovement → List StockMovement
  | [] => [m]
  | x :: xs => if x.id ≤ m.id then m :: x :: xs else x :: insertByIdDesc m xs

/-- Model of `.sort({ _id: -1 })`. -/
def sortByIdDesc : List StockMovement → List StockMovement
  | [] => []
  | m :: ms => insertByIdDesc m (sortByIdDesc ms)

def userProductsOf (db : DB) (u : Nat) : List Product :=
  db.products.filter (fun p => p.userId == u)

/-- The movement query filter: `productId` in the allowed id set, and
`_id < cursor` when a cursor is given. -/
def movementFlt (ids : List Nat) (cursor : Option Nat) (m : StockMovement) : Bool :=
  ids.contains m.productId &&
    (match cursor with
      | some c => decide (m.id < c)
      | none => true)

/-- One page of movements for a fixed id set: fetch limit+1 rows sorted by id
descending, slice off the extra row, emit the next cursor, and join each row
with the current product name (a fallback label when the product is gone). -/
def movementsPage (db : DB) (q : MovementsQuery) (ids : List Nat) :
    List (StockMovement × String) × Option Nat :=
  let lim := min (max (q.limit.getD 50) 1) 200
  let sorted := sortByIdDesc (db.movements.filter (movementFlt ids q.cursor))
  let taken := sorted.take (lim + 1)
  let hasNext := decide (lim < taken.length)
  let slice := if hasNext then taken.take lim else taken
  let nextCursor := if hasNext then (slice.getLast?).map (fun m => m.id) else none
  (slice.map (fun m =>
      (m, (((userProductsOf db q.userId).find? (fun p => p.id == m.productId)).map
            (fun p => p.name)).getD "ไม่ทราบชื่อสินค้า")),
    nextCursor)

/-- Embedding of `getStockMovementsByUser` (src/server/db.ts:439):
movements are filtered by membership of their `productId` in the set of the
shop's *current* product ids, paginated by an id cursor, and joined at read
time with the current product name. -/
def getStockMovementsByUser (db : DB) (q : MovementsQuery) :
    List (StockMovement × String) × Option Nat :=
  let allowedIds := (userProductsOf db q.userId).map (fun p => p.id)
  match q.productId with
  | some pid => if allowedIds.contains pid then movementsPage db q [pid] else ([], none)
  | none => movementsPage db q allowedIds

/-! ### Customers and the debt ledger (src/server/db.ts) -/

/-- Embedding of `getCustomerByName` (src/server/db.ts:706). -/
def getCustomerByName (db : DB) (name : String) (userId : Nat) : Option Customer :=
  db.customers.find? (fun c => c.name == name && c.userId == userId)

/-- Embedding of `createCustomer` (src/server/db.ts:667); returns the new id. -/
def createCustomer (db : DB) (userId : Nat) (name : String) (phone : Option String)
    (totalDebt : ℚ) : Nat × DB :=
  let c : Customer :=
    { id := db.nextId, userId := userId, name := name, phone := phone, totalDebt := totalDebt }
  (db.nextId, { db with customers := db.customers ++ [c], nextId := db.nextId + 1 })

/-- Embedding of `updateCustomerDebt` (src/server/db.ts:721):
`updateOne({ _id }, { $inc: { totalDebt: amount } })` — a single update
operator, so it always applies. -/
def updateCustomerDebt (db : DB) (customerId : Nat) (amount : ℚ) : DB :=
  { db with
      customers :=
        (findOneAndUpdate (fun c => c.id == customerId)
          (fun c => { c with totalDebt := c.totalDebt + amount }) db.customers).2 }

/-! MongoDB rejects an update document in which two update operators target
the same field path (error 40, `ConflictingUpdateOperators`: "Updating the
path 'x' would create a conflict at 'x'").  We model an update document on a
customer's numeric fields as a list of operators, each giving its kind, its
field path and its operand, and reproduce that validation. -/

inductive UpdOpKind
  | inc
  | minOp
deriving DecidableEq

structure UpdOp where
  kind : UpdOpKind
  path : String
  value : ℚ
deriving DecidableEq

inductive MongoError
  | conflictingUpdateOperators
deriving DecidableEq

def applyNumOp (x : ℚ) (op : UpdOp) : ℚ :=
  match op.kind with
  | .inc => x + op.value
  | .minOp => min x op.value

def applyCustomerOps (c : Customer) (ops : List UpdOp) : Customer :=
  ops.foldl
    (fun c op =>
      if op.path = "totalDebt" then { c with totalDebt := applyNumOp c.totalDebt op } else c)
    c

/-- Model of `Customer.updateOne(filter, updateDoc)` for an update document
built from numeric update operators: the write is rejected outright when two
operators target the same path, otherwise the first matching document is
modified. -/
def customerUpdateOne (db : DB) (flt : Customer → Bool) (ops : List UpdOp) :
    Except MongoError DB :=
  if (ops.map (fun op => op.path)).Nodup then
    .ok { db with
            customers := (findOneAndUpdate flt (fun c => applyCustomerOps c ops) db.customers).2 }
  else .error .conflictingUpdateOperators

/-- Embedding of `payDebt` (src/server/db.ts:743): a single `updateOne` whose
update document is `{ $inc: { totalDebt: -amount }, $min: { totalDebt: 0 } }` —
two operators on the same path `totalDebt`. -/
def payDebt (db : DB) (customerId userId : Nat) (amount : ℚ) : Except MongoError DB :=
  customerUpdateOne db (fun c => c.id == customerId && c.userId == userId)
    [⟨.inc, "totalDebt", -amount⟩, ⟨.minOp, "totalDebt", 0⟩]

/-! ### Sales (src/server/db.ts and the sales.create tRPC mutation) -/

/-- Embedding of `createSale` (src/server/db.ts:500); returns the new id. -/
def createSale (db : DB) (userId : Nat) (customerId : Option Nat) (totalAmount : ℚ)
    (paymentType : PaymentType) (vatRate vatAmount subtotal totalWithVat : ℚ)
    (now : Nat) : Nat × DB :=
  let s : Sale :=
    { id := db.nextId, userId := userId, customerId := customerId
      totalAmount := totalAmount, paymentType := paymentType
      vatRate := vatRate, vatAmount := vatAmount
      subtotal := subtotal, totalWithVat := totalWithVat, createdAt := now }
  (db.nextId, { db with sales := db.sales ++ [s], nextId := db.nextId + 1 })

/-- Embedding of `createSaleItems` (src/server/db.ts:527): `insertMany`. -/
def createSaleItems (db : DB) (items : List SaleItem) : DB :=
  { db with saleItems := db.saleItems ++ items }

/-- One line of the `sales.create` input (zod: quantity ≥ 1; unitPrice is a
decimal string, modelled directly as its parsed rational value). -/
structure SaleItemInput where
  productId : Nat
  productName : String
  quantity : Nat
  unitPrice : ℚ
deriving DecidableEq

structure SalesCreateInput where
  items : List SaleItemInput
  paymentType : PaymentType
  customerName : Option String
  vatRate : Option ℚ
deriving DecidableEq

def saleTotal (inp : SalesCreateInput) : ℚ :=
  (inp.items.map (fun it => it.unitPrice * (it.quantity : ℚ))).sum

/-- The stock-adjustment request issued by `sales.create` for one line item:
`updateProductStock(productId, -quantity, "SALE", sale-reference note)`. -/
def saleAdjInput (saleId : Nat) (it : SaleItemInput) : AdjustStockInput :=
  { productId := it.productId
    quantityChange := -(it.quantity : Int)
    source := .SALE
    note := some ("sale:" ++ toString saleId) }

/-- The stock-decrement loop at the end of `sales.create`: one
`updateProductStock` call per line item, sequentially; the first failure
aborts the loop and propagates, keeping all earlier writes. -/
def decrementLoop (saleId : Nat) : List SaleItemInput → DB → Except StockError Unit × DB
  | [], db => (.ok (), db)
  | it :: rest, db =>
    match adjustProductStock db (saleAdjInput saleId it) with
    | (.ok _, db1) => decrementLoop saleId rest db1
    | (.error e, db1) => (.error e, db1)

/-- The create-or-increment customer handling at the top of `sales.create`:
only a credit sale with a (truthy, i.e. non-empty) customer name touches the
customer collection — an existing customer's debt is incremented by the
VAT-inclusive total, a new customer is created with that debt. -/
def creditCustomerStep (db : DB) (userId : Nat) (inp : SalesCreateInput)
    (totalWithVat : ℚ) : Option Nat × DB :=
  match inp.paymentType, inp.customerName with
  | .credit, some nm =>
    if nm.isEmpty then (none, db)
    else
      match getCustomerByName db nm userId with
      | none =>
        let r := createCustomer db userId nm none totalWithVat
        (some r.1, r.2)
      | some c => (some c.id, updateCustomerDebt db c.id totalWithVat)
  | _, _ => (none, db)

/-- Embedding of the `sales.create` tRPC mutation (routers): totals and VAT
are computed, then — in this order — the customer debt is incremented (credit
sales with a non-empty customer name only), the Sale is written, the SaleItems
are written, and finally stock is decremented item by item.  The `toFixed(2)`
formatting round-trips are modelled as the exact rational values. -/
def salesCreate (db : DB) (userId : Nat) (inp : SalesCreateInput) (now : Nat) :
    Except StockError (Nat × ℚ) × DB :=
  let totalAmount := saleTotal inp
  let vatRate := inp.vatRate.getD 0
  let subtotal := totalAmount
  let vatAmount := subtotal * vatRate
  let totalWithVat := subtotal + vatAmount
  let cdb := creditCustomerStep db userId inp totalWithVat
  let r1 := createSale cdb.2 userId cdb.1 totalAmount inp.paymentType vatRate vatAmount
    subtotal totalWithVat now
  let saleId := r1.1
  let db2 := createSaleItems r1.2
    (inp.items.map (fun it =>
      { saleId := saleId, productId := it.productId, productName := it.productName
        quantity := it.quantity, unitPrice := it.unitPrice
        totalPrice := it.unitPrice * (it.quantity : ℚ) }))
  match decrementLoop saleId inp.items db2 with
  | (.ok _, db3) => (.ok (saleId, totalAmount), db3)
  | (.error e, db3) => (.error e, db3)

/-! ### Shift ledger (src/server/db.ts and the shift tRPC router) -/

inductive ShiftError
  | invalidInput
  | shiftAlreadyOpen
  | noOpenShift
  | shiftNotFound
deriving DecidableEq

/-- Embedding of `getOpenShiftToday` (src/server/db.ts:1045):
`findOne({ userId, shiftDate: today, status: "open" })` where `today` is the
clock's date normalized to local midnight. -/
def getOpenShiftToday (db : DB) (userId today : Nat) : Option Shift :=
  db.shifts.find? (fun s => s.userId == userId && s.shiftDate == today && s.status == .opened)

/-- Embedding of `getMaxShiftNumberToday` (src/server/db.ts:1090):
the `$max` of `shiftNumber` over today's shifts, defaulting to 0. -/
def getMaxShiftNumberToday (db : DB) (userId today : Nat) : Nat :=
  ((db.shifts.filter (fun s => s.userId == userId && s.shiftDate == today)).map
    (fun s => s.shiftNumber)).foldl max 0

/-- Embedding of the `shift.open` tRPC mutation: reject when an open shift is
found *today*, otherwise create shift number (max today) + 1 with
`expectedCash = openingCash`.  zod rejects a negative `openingCash` before
the handler runs. -/
def shiftOpen (db : DB) (userId : Nat) (openingCash : ℚ) (now today : Nat) :
    Except ShiftError Shift × DB :=
  if openingCash < 0 then (.error .invalidInput, db)
  else
    match getOpenShiftToday db userId today with
    | some _ => (.error .shiftAlreadyOpen, db)
    | none =>
      let s : Shift :=
        { id := db.nextId, userId := userId
          shiftNumber := getMaxShiftNumberToday db userId today + 1
          shiftDate := today, startTime := now, endTime := none
          openingCash := openingCash, closingCash := none
          expectedCash := openingCash, actualCash := none, cashDifference := none
          totalSales := 0, cashSales := 0, creditSales := 0, saleCount := 0
          status := .opened, notes := none }
      (.ok s, { db with shifts := db.shifts ++ [s], nextId := db.nextId + 1 })

structure SalesSummary where
  totalSales : ℚ
  cashSales : ℚ
  creditSales : ℚ
  saleCount : Nat
deriving DecidableEq

/-- Embedding of `getSalesSummaryForShift` (src/server/db.ts:1141): three
aggregations over the shop's sales in the half-open window
`[startTime, endTime)` — the `$sum` of cash `totalAmount`, the `$sum` of
credit `totalAmount`, and the count of all sales; `totalSales` is the sum of
the first two. -/
def getSalesSummaryForShift (db : DB) (userId startTime endTime : Nat) : SalesSummary :=
  let inWindow : Sale → Bool := fun s =>
    s.userId == userId && decide (startTime ≤ s.createdAt) && decide (s.createdAt < endTime)
  let cash := ((db.sales.filter (fun s => inWindow s && s.paymentType == .cash)).map
    (fun s => s.totalAmount)).sum
  let credit := ((db.sales.filter (fun s => inWindow s && s.paymentType == .credit)).map
    (fun s => s.totalAmount)).sum
  { totalSales := cash + credit, cashSales := cash, creditSales := credit
    saleCount := (db.sales.filter inWindow).length }

/-- Embedding of the `shift.close` tRPC mutation: find today's open shift,
recompute the sales summary over `[shift.startTime, now)`, set
`expectedCash = openingCash + cashSales` and
`cashDifference = closingCash − expectedCash`, and persist the closed shift
via `closeShift` (a `findByIdAndUpdate`).  zod rejects a negative
`closingCash` before the handler runs. -/
def shiftClose (db : DB) (userId : Nat) (closingCash : ℚ) (notes : Option String)
    (now today : Nat) : Except ShiftError Shift × DB :=
  if closingCash < 0 then (.error .invalidInput, db)
  else
    match getOpenShiftToday db userId today with
    | none => (.error .noOpenShift, db)
    | some shift =>
      let endTime := now
      let summary := getSalesSummaryForShift db userId shift.startTime endTime
      let expectedCash := shift.openingCash + summary.cashSales
      let actualCash := closingCash
      let cashDifference := actualCash - expectedCash
      match findOneAndUpdate (fun s => s.id == shift.id)
          (fun s =>
            { s with
                endTime := some endTime, closingCash := some closingCash
                expectedCash := expectedCash, actualCash := some actualCash
                cashDifference := some cashDifference
                totalSales := summary.totalSales, cashSales := summary.cashSales
                creditSales := summary.creditSales, saleCount := summary.saleCount
                status := .closed, notes := notes })
          db.shifts with
      | (none, _) => (.error .shiftNotFound, db)
      | (some s, shifts) => (.ok s, { db with shifts := shifts })

/-! ### Settings singleton (src/server/db.ts, getSettings) -/

def defaultSettings : Settings :=
  { vatEnabled := false, sellerName := "", sellerAddress := "", sellerTaxId := "" }

/-- Embedding of `getSettings` (src/server/db.ts:1565): lazy-create the
singleton with schema defaults (blank seller fields) when the collection is
empty.  The legacy-migration branch (a pre-existing document without the
`singleton` key) has no counterpart in this model, where a settings document
always is the singleton. -/
def getSettings (db : DB) : Settings × DB :=
  match db.settings with
  | some s => (s, db)
  | none => (defaultSettings, { db with settings := some defaultSettings })

/-! ### Full tax invoice register (src/server/db.ts) -/

/-- Decimal digit character, the embedding of JS number-to-string (`48` is
the code point of '0'). -/
def digChar (d : Nat) : Char := Char.ofNat (48 + d)

def natDigitsAux (fuel n : Nat) : List Char :=
  match fuel with
  | 0 => []
  | fuel + 1 => if n < 10 then [digChar n] else natDigitsAux fuel (n / 10) ++ [digChar (n % 10)]

/-- Big-endian decimal digits of a natural number, as produced by JS string
interpolation of an integer (fuel-based so that it computes by reduction). -/
def natDigits (n : Nat) : List Char := natDigitsAux (n + 1) n

/-- Model of `String(n).padStart(6, "0")`. -/
def pad6 (n : Nat) : List Char :=
  List.replicate (6 - (natDigits n).length) '0' ++ natDigits n

/-- The characters of the per-year prefix `TAX-{year}-`. -/
def pfxChars (year : Nat) : List Char :=
  ("TAX-".data ++ natDigits year) ++ ['-']

def pfxStr (year : Nat) : String := String.mk (pfxChars year)

/-- The invoice number `TAX-{year}-` followed by the sequence padded to six
digits. -/
def mkInvNum (year k : Nat) : String := String.mk (pfxChars year ++ pad6 k)

/-- Bytewise/codepoint lexicographic comparison of character lists — the
order MongoDB uses to sort plain strings. -/
def strLtListB : List Char → List Char → Bool
  | [], [] => false
  | [], _ :: _ => true
  | _ :: _, [] => false
  | a :: as, b :: bs =>
    if a.toNat < b.toNat then true
    else if b.toNat < a.toNat then false
    else strLtListB as bs

def strLtB (s t : String) : Bool := strLtListB s.data t.data

/-- Model of the anchored prefix regex `^p` applied to `s` (the code escapes
regex metacharacters, so the prefix is matched literally). -/
def pfxMatch : List Char → List Char → Bool
  | [], _ => true
  | _ :: _, [] => false
  | a :: as, b :: bs => a == b && pfxMatch as bs

def isDigitB (c : Char) : Bool := 48 ≤ c.toNat && c.toNat ≤ 57

/-- Positional value of a big-endian list of digit characters — the model of
`parseInt(digits, 10)`. -/
def digitsVal : List Char → Nat
  | [] => 0
  | c :: cs => (c.toNat - 48) * 10 ^ cs.length + digitsVal cs

/-- Model of matching `^TAX-\d{4}-(\d+)$` against `s` and parsing the
captured group with `parseInt`. -/
def parseTaxSeq (s : String) : Option Nat :=
  match s.data with
  | 'T' :: 'A' :: 'X' :: '-' :: a :: b :: c :: d :: '-' :: digits =>
    if isDigitB a && isDigitB b && isDigitB c && isDigitB d
        && !digits.isEmpty && digits.all isDigitB then
      some (digitsVal digits)
    else none
  | _ => none

/-- The invoice numbers of the shop's invoices that match the year's prefix
regex — everything `generateInvoiceNumber` reads. -/
def relevantNums (db : DB) (userId year : Nat) : List String :=
  (db.invoices.filter
    (fun i => i.userId == userId && pfxMatch (pfxChars year) i.invoiceNumber.data)).map
    (fun i => i.invoiceNumber)

/-- Model of `.sort({ invoiceNumber: -1 })` followed by `findOne`: the
lexicographically greatest string. -/
def maxStr (l : List String) : Option String :=
  l.foldl
    (fun acc s =>
      match acc with
      | none => some s
      | some b => if strLtB b s then some s else some b)
    none

/-- Embedding of `generateInvoiceNumber` (src/server/db.ts:1618): take the
lexicographically highest invoice number of this shop with prefix
`TAX-{year}-`, parse its trailing digit run, add one and pad to six digits;
when there is none (or it fails to parse) the sequence starts at 1. -/
def generateInvoiceNumber (db : DB) (userId year : Nat) : String :=
  match maxStr (relevantNums db userId year) with
  | none => mkInvNum year 1
  | some last =>
    match parseTaxSeq last with
    | some n => mkInvNum year (n + 1)
    | none => mkInvNum year 1

inductive SellerField
  | sName
  | sAddress
  | sTaxId
deriving DecidableEq

/-- Model of the JS blank test `!s || !s.trim()` on a string field: the
string is empty or trimming leaves nothing, i.e. every character is
whitespace. -/
def isBlank (s : String) : Bool := s.data.all Char.isWhitespace

def sellerFieldValue (st : Settings) : SellerField → String
  | .sName => st.sellerName
  | .sAddress => st.sellerAddress
  | .sTaxId => st.sellerTaxId

/-- The `missingFields` list built by `createFullTaxInvoice`, in its order. -/
def missingSellerFields (st : Settings) : List SellerField :=
  (if isBlank st.sellerName then [SellerField.sName] else []) ++
  (if isBlank st.sellerAddress then [SellerField.sAddress] else []) ++
  (if isBlank st.sellerTaxId then [SellerField.sTaxId] else [])

inductive InvoiceError
  | saleNotFound
  | notEligible
  | alreadyExists
  | sellerIncomplete (missing : List SellerField)
deriving DecidableEq

/-- Embedding of `createFullTaxInvoice` (src/server/db.ts:1659): the checks
run in source order — sale exists, `vatRate > 0`, no invoice for this sale
yet, seller settings complete (with `getSettings` lazily creating the
blank-default singleton when absent) — and only then is the invoice number
generated and the invoice written, snapshotting seller and VAT figures. -/
def createFullTaxInvoice (db : DB) (userId saleId : Nat)
    (buyerName buyerAddress : String) (buyerTaxId : Option String)
    (year now : Nat) : Except InvoiceError Nat × DB :=
  match db.sales.find? (fun s => s.id == saleId) with
  | none => (.error .saleNotFound, db)
  | some sale =>
    if sale.vatRate ≤ 0 then (.error .notEligible, db)
    else
      match db.invoices.find? (fun i => i.saleId == saleId) with
      | some _ => (.error .alreadyExists, db)
      | none =>
        let r := getSettings db
        let st := r.1
        let db1 := r.2
        let missing := missingSellerFields st
        if missing.isEmpty then
          let invoiceNumber := generateInvoiceNumber db1 userId year
          let inv : FullTaxInvoice :=
            { id := db1.nextId, userId := userId, saleId := saleId
              invoiceNumber := invoiceNumber
              sellerName := st.sellerName, sellerAddress := st.sellerAddress
              sellerTaxId := st.sellerTaxId
              buyerName := buyerName, buyerAddress := buyerAddress
              buyerTaxId := buyerTaxId
              subtotal := sale.subtotal, vatAmount := sale.vatAmount
              totalWithVat := sale.totalWithVat
              issuedDate := now, status := .issued }
          (.ok db1.nextId, { db1 with invoices := db1.invoices ++ [inv], nextId := db1.nextId + 1 })
        else (.error (.sellerIncomplete missing), db1)

inductive CancelError
  | invoiceNotFound
  | alreadyCancelled
deriving DecidableEq

/-- Embedding of `cancelFullTaxInvoice` (src/server/db.ts:1737): find the
invoice, reject a second cancellation, otherwise flip only the status to
`cancelled` — the record and its number are never deleted. -/
def cancelFullTaxInvoice (db : DB) (invoiceId userId : Nat) :
    Except CancelError Unit × DB :=
  match db.invoices.find? (fun i => i.id == invoiceId && i.userId == userId) with
  | none => (.error .invoiceNotFound, db)
  | some inv =>
    if inv.status == .cancelled then (.error .alreadyCancelled, db)
    else
      (.ok (),
        { db with
            invoices :=
              (findOneAndUpdate (fun i => i.id == invoiceId && i.userId == userId)
                (fun i => { i with status := .cancelled }) db.invoices).2 })

/-- The numeric sequence of an invoice number (0 when it fails to parse) —
the reading of "the highest existing number" used to state the numbering
claims. -/
def invSeqVal (s : String) : Nat := (parseTaxSeq s).getD 0

/-- The highest existing sequence among this shop's invoice numbers with the
year's prefix. -/
def maxSeq (db : DB) (userId year : Nat) : Nat :=
  ((relevantNums db userId year).map invSeqVal).foldl max 0

/-- The Sale record written by `sales.create` (fields as computed in the
handler: legacy `totalAmount`, VAT breakdown, snapshot of the inputs). -/
def saleRecOf (sid : Nat) (cid : Option Nat) (u : Nat) (inp : SalesCreateInput)
    (now : Nat) : Sale :=
  { id := sid, userId := u, customerId := cid
    totalAmount := saleTotal inp, paymentType := inp.paymentType
    vatRate := inp.vatRate.getD 0, vatAmount := saleTotal inp * inp.vatRate.getD 0
    subtotal := saleTotal inp
    totalWithVat := saleTotal inp + saleTotal inp * inp.vatRate.getD 0
    createdAt := now }

/-- The SaleItem record written by `sales.create` for one input line. -/
def saleItemRecOf (sid : Nat) (it : SaleItemInput) : SaleItem :=
  { saleId := sid, productId := it.productId, productName := it.productName
    quantity := it.quantity, unitPrice := it.unitPrice
    totalPrice := it.unitPrice * (it.quantity : ℚ) }

/-! ### Concrete stores used to exercise the theorems -/

def emptyDB : DB :=
  { products := [], movements := [], sales := [], saleItems := [], customers := []
    shifts := [], invoices := [], settings := none, nextId := 100 }

def exDb1 : DB := { emptyDB with products := [⟨1, 7, "ปุ๋ยยูเรีย", 2⟩] }

def exDb2 : DB := { emptyDB with products := [⟨1, 7, "ปุ๋ยยูเรีย", 10⟩] }

def exAdj2 : AdjustStockInput := ⟨1, -3, .SALE, some "sale:42"⟩

def exP2' : Product := ⟨1, 7, "ปุ๋ยยูเรีย", 7⟩

def exDb2' : DB :=
  { exDb2 with
      products := [exP2']
      movements := [⟨100, 1, .OUT, 3, .SALE, some "sale:42"⟩]
      nextId := 101 }

def exShift3 : Shift :=
  { id := 1, userId := 1, shiftNumber := 1, shiftDate := 5, startTime := 50
    endTime := none, openingCash := 500, closingCash := none, expectedCash := 500
    actualCash := none, cashDifference := none, totalSales := 0, cashSales := 0
    creditSales := 0, saleCount := 0, status := .opened, notes := none }

def exSale (id : Nat) (amount : ℚ) (pt : PaymentType) (t : Nat) : Sale :=
  { id := id, userId := 1, customerId := none, totalAmount := amount, paymentType := pt
    vatRate := 0, vatAmount := 0, subtotal := amount, totalWithVat := amount, createdAt := t }

def exDb3 : DB :=
  { emptyDB with
      shifts := [exShift3]
      sales := [exSale 11 500 .cash 60, exSale 12 400 .cash 70,
                exSale 13 300 .cash 80, exSale 14 300 .credit 90] }

def exInvoice (id : Nat) (num : String) (st : InvStatus) : FullTaxInvoice :=
  { id := id, userId := 1, saleId := id, invoiceNumber := num
    sellerName := "ร้านตัวอย่าง", sellerAddress := "ที่อยู่", sellerTaxId := "1234567890123"
    buyerName := "ผู้ซื้อ", buyerAddress := "ที่อยู่ผู้ซื้อ", buyerTaxId := none
    subtotal := 100, vatAmount := 7, totalWithVat := 107, issuedDate := 10, status := st }

def exDb4 : DB :=
  { emptyDB with
      invoices := [exInvoice 1 (mkInvNum 2026 1) .cancelled,
                   exInvoice 2 (mkInvNum 2026 2) .issued] }

def exVatSale : Sale :=
  { id := 1, userId := 1, customerId := none, totalAmount := 100, paymentType := .cash
    vatRate := 7 / 100, vatAmount := 7, subtotal := 100, totalWithVat := 107, createdAt := 10 }

def exDb5 : DB :=
  { emptyDB with
      sales := [exVatSale, exSale 2 50 .cash 11]
      settings := some { vatEnabled := true, sellerName := "ร้านตัวอย่าง"
                         sellerAddress := "ที่อยู่", sellerTaxId := "1234567890123" } }

def exDb5c : DB := { emptyDB with sales := [exVatSale], settings := none }

def exShift6 : Shift :=
  { exShift3 with shiftDate := 3, startTime := 30, openingCash := 100, expectedCash := 100 }

def exDb6 : DB := { emptyDB with shifts := [exShift6] }

def exDb8 : DB := { emptyDB with customers := [⟨1, 7, "สมชาย", none, 100⟩] }

def exDb9 : DB :=
  { emptyDB with
      products := [⟨1, 1, "ปุ๋ยยูเรีย", 10⟩, ⟨2, 1, "ยาฆ่าแมลง", 1⟩]
      customers := [⟨5, 1, "ลูกค้าประจำ", none, 40⟩] }

def exInp9 : SalesCreateInput :=
  { items := [⟨1, "ปุ๋ยยูเรีย", 3, 50⟩, ⟨2, "ยาฆ่าแมลง", 2, 30⟩]
    paymentType := .credit, customerName := some "ลูกค้าประจำ", vatRate := some 0 }

def exDb9' : DB := (salesCreate exDb9 1 exInp9 100).2

def exDb10 : DB :=
  { emptyDB with
      products := [⟨1, 1, "ปุ๋ยยูเรีย", 5⟩, ⟨2, 1, "ยาฆ่าแมลง", 5⟩]
      movements := [⟨10, 1, .IN, 5, .PURCHASE, none⟩, ⟨11, 2, .IN, 5, .PURCHASE, none⟩] }

def exShift6' : Shift :=
  { id := 100, userId := 1, shiftNumber := 1, shiftDate := 4, startTime := 400
    endTime := none, openingCash := 100, closingCash := none, expectedCash := 100
    actualCash := none, cashDifference := none, totalSales := 0, cashSales := 0
    creditSales := 0, saleCount := 0, status := .opened, notes := none }

def exShift3' : Shift :=
  { exShift3 with
      endTime := some 100, closingCash := some 1680, expectedCash := 1700
      actualCash := some 1680, cashDifference := some (-20), totalSales := 1500
      cashSales := 1200, creditSales := 300, saleCount := 4, status := .closed
      notes := none }

/-! ### Lemmas about the generic single-document operations -/

theorem findOneAndUpdate_of_all_false {flt : α → Bool} {upd : α → α} {l : List α}
    (h : ∀ x ∈ l, flt x = false) : findOneAndUpdate flt upd l = (none, l) := by
  induction l with
  | nil => rfl
  | cons x xs ih =>
    have hx := h x (List.mem_cons_self x xs)
    simp only [findOneAndUpdate, hx, Bool.false_eq_true, if_false]
    rw [ih (fun z hz => h z (List.mem_cons_of_mem x hz))]

theorem findOneAndUpdate_eq_some {flt : α → Bool} {upd : α → α} {l : List α}
    {x : α} {l' : List α} (h : findOneAndUpdate flt upd l = (some x, l')) :
    ∃ pre y post, l = pre ++ y :: post ∧ flt y = true ∧ (∀ z ∈ pre, flt z = false) ∧
      x = upd y ∧ l' = pre ++ upd y :: post := by
  induction l generalizing l' with
  | nil => simp [findOneAndUpdate] at h
  | cons a as ih =>
    by_cases ha : flt a
    · simp only [findOneAndUpdate, ha, if_true, Prod.mk.injEq, Option.some.injEq] at h
      exact ⟨[], a, as, rfl, ha, by simp, h.1.symm, by rw [← h.2]; rfl⟩
    · simp only [findOneAndUpdate, ha, Bool.false_eq_true, if_false, Prod.mk.injEq] at h
      obtain ⟨h1, h2⟩ := h
      obtain ⟨pre, y, post, hl, hy, hpre, hx, hl'⟩ := ih
        (show findOneAndUpdate flt upd as = (some x, (findOneAndUpdate flt upd as).2) by
          conv_rhs => rw [← h1]; rw [Prod.mk.eta])
      refine ⟨a :: pre, y, post, by rw [hl]; rfl, hy, ?_, hx, ?_⟩
      · intro z hz
        rcases List.mem_cons.mp hz with hz | hz
        · simpa [hz] using ha
        · exact hpre z hz
      · rw [← h2, hl']; rfl

theorem findOneAndUpdate_fst_none {flt : α → Bool} {upd : α → α} {l : List α}
    (h : (findOneAndUpdate flt upd l).1 = none) :
    (∀ x ∈ l, flt x = false) ∧ (findOneAndUpdate flt upd l).2 = l := by
  induction l with
  | nil => exact ⟨by simp, rfl⟩
  | cons a as ih =>
    by_cases ha : flt a
    · simp [findOneAndUpdate, ha] at h
    · simp only [findOneAndUpdate, ha, Bool.false_eq_true, if_false] at h ⊢
      obtain ⟨h1, h2⟩ := ih h
      exact ⟨fun x hx => by
        rcases List.mem_cons.mp hx with hx | hx
        · simpa [hx] using ha
        · exact h1 x hx, by rw [h2]⟩

theorem deleteOne_cases (flt : α → Bool) (l : List α) :
    ((∀ x ∈ l, flt x = false) ∧ deleteOne flt l = l) ∨
    (∃ pre y post, l = pre ++ y :: post ∧ flt y = true ∧ (∀ z ∈ pre, flt z = false) ∧
      deleteOne flt l = pre ++ post) := by
  induction l with
  | nil => exact Or.inl ⟨by simp, rfl⟩
  | cons a as ih =>
    by_cases ha : flt a
    · exact Or.inr ⟨[], a, as, rfl, ha, by simp, by simp [deleteOne, ha]⟩
    · rcases ih with ⟨h1, h2⟩ | ⟨pre, y, post, hl, hy, hpre, hd⟩
      · refine Or.inl ⟨fun x hx => ?_, by simp [deleteOne, ha, h2]⟩
        rcases List.mem_cons.mp hx with hx | hx
        · simpa [hx] using ha
        · exact h1 x hx
      · refine Or.inr ⟨a :: pre, y, post, by rw [hl]; rfl, hy, ?_, ?_⟩
        · intro z hz
          rcases List.mem_cons.mp hz with hz | hz
          · simpa [hz] using ha
          · exact hpre z hz
        · simp [deleteOne, ha, hd]

theorem mem_insertByIdDesc {m x : StockMovement} {l : List StockMovement}
    (h : x ∈ insertByIdDesc m l) : x = m ∨ x ∈ l := by
  induction l with
  | nil => simpa [insertByIdDesc] using h
  | cons a as ih =>
    by_cases ha : a.id ≤ m.id
    · simpa [insertByIdDesc, ha] using h
    · simp only [insertByIdDesc, ha, if_false] at h
      rcases List.mem_cons.mp h with h | h
      · exact Or.inr (by simp [h])
      · rcases ih h with h | h
        · exact Or.inl h
        · exact Or.inr (List.mem_cons_of_mem a h)

theorem mem_sortByIdDesc {x : StockMovement} {l : List StockMovement}
    (h : x ∈ sortByIdDesc l) : x ∈ l := by
  induction l with
  | nil => simp [sortByIdDesc] at h
  | cons a as ih =>
    have h' : x ∈ insertByIdDesc a (sortByIdDesc as) := by simpa [sortByIdDesc] using h
    rcases mem_insertByIdDesc h' with h | h
    · simp [h]
    · exact List.mem_cons_of_mem a (ih h)

/-! ### C1: the insufficient-stock guard of adjustProductStock -/

/-- C1.  A negative-delta adjustment against a product whose stock is below
the requested decrement fails with the insufficient-stock domain error and
leaves the store untouched (in particular the stock field is unchanged and no
StockMovement is created); moreover no outcome of a negative-delta adjustment
can drive any stock below zero. -/
theorem adjustProductStock_insufficient_stock (db : DB) (i : AdjustStockInput)
    (hneg : i.quantityChange < 0) :
    ((∀ p ∈ db.products, p.id = i.productId → p.stock < (i.quantityChange.natAbs : Int)) →
      adjustProductStock db i = (.error .insufficientStock, db)) ∧
    (∀ r db', adjustProductStock db i = (r, db') →
      (∀ p ∈ db.products, 0 ≤ p.stock) → ∀ p ∈ db'.products, 0 ≤ p.stock) := by
  have hzb : (i.quantityChange == 0) = false := by
    simp only [beq_eq_false_iff_ne, ne_eq]
    omega
  constructor
  · intro hins
    have hall : ∀ p ∈ db.products, adjustFilter i p = false := by
      intro p hp
      rw [adjustFilter, if_pos hneg]
      by_cases hid : p.id = i.productId
      · have hd : decide ((i.quantityChange.natAbs : Int) ≤ p.stock) = false :=
          decide_eq_false (not_le.mpr (hins p hp hid))
        rw [hd, Bool.and_false]
      · have hb : (p.id == i.productId) = false := beq_eq_false_iff_ne.mpr hid
        rw [hb, Bool.false_and]
    rw [adjustProductStock, hzb]
    simp only [Bool.false_eq_true, if_false, findOneAndUpdate_of_all_false hall]
    rw [if_pos hneg]
  · intro r db' h hall p hp
    rw [adjustProductStock, hzb] at h
    simp only [Bool.false_eq_true, if_false] at h
    split at h
    · split at h <;>
        (rw [Prod.mk.injEq] at h
         rw [← h.2] at hp
         exact hall p hp)
    · rename_i p0 prods heq
      rw [Prod.mk.injEq] at h
      rw [← h.2] at hp
      obtain ⟨pre, y, post, hl, hy, _, _, hl'⟩ := findOneAndUpdate_eq_some heq
      have hp' : p ∈ pre ++ adjustUpd i y :: post := by
        simpa [hl'] using hp
      have hyflt : (i.quantityChange.natAbs : Int) ≤ y.stock := by
        rw [adjustFilter, if_pos hneg, Bool.and_eq_true] at hy
        exact of_decide_eq_true hy.2
      rcases List.mem_append.mp hp' with hmem | hmem
      · exact hall p (hl ▸ List.mem_append_left _ hmem)
      · rcases List.mem_cons.mp hmem with hmem | hmem
        · rw [hmem]
          show 0 ≤ y.stock + i.quantityChange
          omega
        · exact hall p (hl ▸ List.mem_append_right _ (List.mem_cons_of_mem y hmem))

theorem adjustProductStock_insufficient_stock_witness :
    ((-5 : Int) < 0) ∧
    (∀ p ∈ exDb1.products, p.id = 1 → p.stock < (((-5 : Int)).natAbs : Int)) ∧
    adjustProductStock exDb1 ⟨1, -5, .SALE, none⟩ = (.error .insufficientStock, exDb1) :=
  ⟨by decide, by decide,
    (adjustProductStock_insufficient_stock exDb1 ⟨1, -5, .SALE, none⟩ (by decide)).1 (by decide)⟩

/-! ### C2: movement/stock consistency of successful adjustments -/

/-- C2.  Every successful `adjustProductStock` call with delta `d` prepends
exactly one StockMovement whose quantity is `|d|` and whose type is IN for
positive and OUT for negative `d`, and changes the matched product's stock by
exactly `d`. -/
theorem adjustProductStock_movement_consistency (db : DB) (i : AdjustStockInput)
    (p' : Product) (db' : DB)
    (h : adjustProductStock db i = (.ok p', db')) :
    (∃ m, db'.movements = m :: db.movements ∧ m.productId = i.productId ∧
      m.quantity = i.quantityChange.natAbs ∧
      m.type = (if 0 < i.quantityChange then MovementType.IN else MovementType.OUT) ∧
      m.source = i.source) ∧
    (∃ pre p post, db.products = pre ++ p :: post ∧ p.id = i.productId ∧
      db'.products = pre ++ { p with stock := p.stock + i.quantityChange } :: post ∧
      p'.stock = p.stock + i.quantityChange) := by
  rw [adjustProductStock] at h
  by_cases hz : (i.quantityChange == 0) = true
  · rw [if_pos hz] at h
    simp at h
  · rw [Bool.not_eq_true] at hz
    rw [hz] at h
    simp only [Bool.false_eq_true, if_false] at h
    split at h
    · split at h <;> simp at h
    · rename_i p0 prods heq
      rw [Prod.mk.injEq, Except.ok.injEq] at h
      obtain ⟨hp0, hdb'⟩ := h
      obtain ⟨pre, y, post, hl, hy, _, hx, hl'⟩ := findOneAndUpdate_eq_some heq
      constructor
      · exact ⟨{ id := db.nextId, productId := i.productId
                 type := if 0 < i.quantityChange then .IN else .OUT
                 quantity := i.quantityChange.natAbs, source := i.source, note := i.note },
          by rw [← hdb'], rfl, rfl, rfl, rfl⟩
      · refine ⟨pre, y, post, hl, ?_, ?_, ?_⟩
        · rw [adjustFilter] at hy
          split at hy
          · rw [Bool.and_eq_true] at hy
            exact eq_of_beq hy.1
          · exact eq_of_beq hy
        · rw [← hdb']
          exact hl'
        · rw [← hp0, hx]
          rfl

theorem adjustProductStock_movement_consistency_witness :
    (adjustProductStock exDb2 exAdj2 = (.ok exP2', exDb2')) ∧
    ((∃ m, exDb2'.movements = m :: exDb2.movements ∧ m.productId = exAdj2.productId ∧
      m.quantity = exAdj2.quantityChange.natAbs ∧
      m.type = (if 0 < exAdj2.quantityChange then MovementType.IN else MovementType.OUT) ∧
      m.source = exAdj2.source) ∧
    (∃ pre p post, exDb2.products = pre ++ p :: post ∧ p.id = exAdj2.productId ∧
      exDb2'.products = pre ++ { p with stock := p.stock + exAdj2.quantityChange } :: post ∧
      exP2'.stock = p.stock + exAdj2.quantityChange)) :=
  ⟨rfl, adjustProductStock_movement_consistency exDb2 exAdj2 exP2' exDb2' rfl⟩

/-! ### C7: which error a matchless conditional update raises -/

/-- C7 counterexample.  With an empty catalog (the product does not exist) a
negative-delta adjustment is rejected with the insufficient-stock error, not
with the product-not-found error the claim predicts; there is no follow-up
existence check. -/
theorem adjustStock_missing_product_error_cx :
    emptyDB.products = [] ∧
    adjustProductStock emptyDB ⟨1, -1, .ADJUST, none⟩ = (.error .insufficientStock, emptyDB) ∧
    StockError.insufficientStock ≠ StockError.productNotFound :=
  ⟨rfl, rfl, by decide⟩

/-- C7 amended.  When the conditional update of `adjustProductStock` matches
no document, the resulting error is determined by the sign of the delta
alone: a negative delta reports insufficient stock (even when the product
does not exist at all) and a positive delta reports product-not-found. -/
theorem adjustStock_noMatch_error_by_sign (db : DB) (i : AdjustStockInput)
    (hz : i.quantityChange ≠ 0)
    (hnone : (findOneAndUpdate (adjustFilter i) (adjustUpd i) db.products).1 = none) :
    adjustProductStock db i =
      (.error (if i.quantityChange < 0 then .insufficientStock else .productNotFound), db) := by
  have hzb : (i.quantityChange == 0) = false := by simpa using hz
  rw [adjustProductStock, hzb]
  simp only [Bool.false_eq_true, if_false]
  split
  · split <;> rfl
  · rename_i p0 prods heq
    rw [heq] at hnone
    simp at hnone

theorem adjustStock_noMatch_error_by_sign_witness :
    ((5 : Int) ≠ 0) ∧
    ((findOneAndUpdate (adjustFilter ⟨9, 5, .ADJUST, none⟩)
        (adjustUpd ⟨9, 5, .ADJUST, none⟩) exDb1.products).1 = none) ∧
    adjustProductStock exDb1 ⟨9, 5, .ADJUST, none⟩ = (.error .productNotFound, exDb1) :=
  ⟨by decide, rfl, by
    have h := adjustStock_noMatch_error_by_sign exDb1 ⟨9, 5, .ADJUST, none⟩
      (by decide) rfl
    simpa using h⟩

/-! ### C8: payDebt issues a self-conflicting MongoDB update -/

/-- C8.  `payDebt` sends a single `updateOne` whose update document carries
both `$inc` and `$min` on the path `totalDebt`; MongoDB rejects such a
document outright (ConflictingUpdateOperators), so every `payDebt` call
fails and the customer's debt is never reduced — in particular paying 150
against a debt of 100 does not produce the claimed balance of 0. -/
theorem payDebt_always_conflicts :
    (∀ (db : DB) (cid uid : Nat) (amount : ℚ),
      payDebt db cid uid amount = .error .conflictingUpdateOperators) ∧
    payDebt exDb8 1 7 150 = .error .conflictingUpdateOperators := by
  have hgen : ∀ (db : DB) (cid uid : Nat) (amount : ℚ),
      payDebt db cid uid amount = .error .conflictingUpdateOperators := by
    intro db cid uid amount
    rw [payDebt, customerUpdateOne]
    rw [show (List.map (fun op => op.path)
        [(⟨.inc, "totalDebt", -amount⟩ : UpdOp), ⟨.minOp, "totalDebt", 0⟩]) =
        ["totalDebt", "totalDebt"] from rfl]
    rw [if_neg (by decide)]
  exact ⟨hgen, hgen exDb8 1 7 150⟩

/-! ### C6: what blocks opening a shift -/

theorem exists_findOneAndUpdate_eq_some {flt : α → Bool} (upd : α → α) {l : List α}
    (h : ∃ y ∈ l, flt y = true) :
    ∃ z l', findOneAndUpdate flt upd l = (some (upd z), l') ∧ flt z = true ∧ z ∈ l ∧
      upd z ∈ l' := by
  induction l with
  | nil => simp at h
  | cons a as ih =>
    by_cases ha : flt a
    · exact ⟨a, upd a :: as, by rw [findOneAndUpdate, if_pos ha], ha,
        List.mem_cons_self _ _, List.mem_cons_self _ _⟩
    · obtain ⟨y, hy, hfy⟩ := h
      rcases List.mem_cons.mp hy with hy | hy
      · rw [hy] at hfy
        exact absurd hfy ha
      · obtain ⟨z, l', hfu, hz, hzl, hmem⟩ := ih ⟨y, hy, hfy⟩
        refine ⟨z, a :: l', ?_, hz, List.mem_cons_of_mem a hzl, List.mem_cons_of_mem a hmem⟩
        rw [findOneAndUpdate, if_neg ha, hfu]

/-- C6 counterexample.  A shift left open on a previous calendar day
(shiftDate 3) does not block opening a new shift today (day 4): the open
call succeeds instead of failing with the shift-already-open error, because
the lookup is scoped to today's date. -/
theorem shiftOpen_previous_day_cx :
    (∃ s ∈ exDb6.shifts, s.userId = 1 ∧ s.status = .opened) ∧
    (shiftOpen exDb6 1 100 400 4).1 = .ok exShift6' ∧
    (shiftOpen exDb6 1 100 400 4).1 ≠ .error .shiftAlreadyOpen := by
  refine ⟨⟨exShift6, by decide⟩, rfl, ?_⟩
  intro hcontra
  rw [show (shiftOpen exDb6 1 100 400 4).1 = .ok exShift6' from rfl] at hcontra
  exact Except.noConfusion hcontra

/-- C6 amended.  Opening a shift fails with the shift-already-open domain
error exactly when an open shift of the shop with `shiftDate` equal to the
current calendar day exists; an open shift left over from a previous day
does not block opening. -/
theorem shiftOpen_blocked_iff (db : DB) (u : Nat) (c : ℚ) (now today : Nat)
    (hc : 0 ≤ c) :
    ((shiftOpen db u c now today).1 = .error .shiftAlreadyOpen ↔
      ∃ s ∈ db.shifts, s.userId = u ∧ s.shiftDate = today ∧ s.status = .opened) := by
  rcases hf : getOpenShiftToday db u today with _ | s
  · rw [shiftOpen, if_neg (not_lt.mpr hc), hf]
    constructor
    · intro h
      simp at h
    · rintro ⟨s, hs, h1, h2, h3⟩
      rw [getOpenShiftToday] at hf
      have hfalse := List.find?_eq_none.mp hf s hs
      simp [h1, h2, h3] at hfalse
  · rw [shiftOpen, if_neg (not_lt.mpr hc), hf]
    constructor
    · intro _
      rw [getOpenShiftToday] at hf
      have hmem := List.mem_of_find?_eq_some hf
      have hp := List.find?_some hf
      rw [Bool.and_eq_true, Bool.and_eq_true] at hp
      exact ⟨s, hmem, eq_of_beq hp.1.1, eq_of_beq hp.1.2, eq_of_beq hp.2⟩
    · intro _
      rfl

theorem shiftOpen_blocked_iff_witness :
    (0 ≤ (100 : ℚ)) ∧
    ((shiftOpen exDb6 1 100 400 3).1 = .error .shiftAlreadyOpen ↔
      ∃ s ∈ exDb6.shifts, s.userId = 1 ∧ s.shiftDate = 3 ∧ s.status = .opened) :=
  ⟨by norm_num, shiftOpen_blocked_iff exDb6 1 100 400 3 (by norm_num)⟩

/-! ### C3: the arithmetic of closing a shift -/

/-- C3.  Closing an open shift stamps it closed with
`expectedCash = openingCash + (sum of cash-paid sale totals in
[startTime, now))`, `cashDifference = actualCash − expectedCash` (the actual
cash being the caller-supplied closing cash), and
`totalSales = cashSales + creditSales` over the same window. -/
theorem shiftClose_math (db : DB) (u : Nat) (closingCash : ℚ) (notes : Option String)
    (now today : Nat) (s : Shift)
    (hopen : getOpenShiftToday db u today = some s)
    (hc : 0 ≤ closingCash) :
    ∃ s' db', shiftClose db u closingCash notes now today = (.ok s', db') ∧
      s' ∈ db'.shifts ∧ s'.status = .closed ∧ s'.id = s.id ∧
      s'.expectedCash =
        s.openingCash + (getSalesSummaryForShift db u s.startTime now).cashSales ∧
      s'.cashDifference =
        some (closingCash -
          (s.openingCash + (getSalesSummaryForShift db u s.startTime now).cashSales)) ∧
      s'.totalSales =
        (getSalesSummaryForShift db u s.startTime now).cashSales +
          (getSalesSummaryForShift db u s.startTime now).creditSales ∧
      s'.actualCash = some closingCash ∧ s'.endTime = some now := by
  have hsmem : s ∈ db.shifts := List.mem_of_find?_eq_some hopen
  rw [shiftClose, if_neg (not_lt.mpr hc), hopen]
  dsimp only
  split
  · rename_i heq
    exfalso
    have hall := (findOneAndUpdate_fst_none (by rw [heq])).1 s hsmem
    simp at hall
  · rename_i s' shifts heq
    obtain ⟨pre, y, post, hl, hy, _, hx, hl'⟩ := findOneAndUpdate_eq_some heq
    have hid : y.id = s.id := eq_of_beq hy
    refine ⟨s', { db with shifts := shifts }, rfl, ?_, ?_, ?_, ?_, ?_, ?_, ?_, ?_⟩
    · rw [hx, hl']
      exact List.mem_append_right _ (List.mem_cons_self _ _)
    · rw [hx]
    · rw [hx]
      exact hid
    · rw [hx]
    · rw [hx]
    · rw [hx]
      exact rfl
    · rw [hx]
    · rw [hx]

/-! ### C10: hard-deleting a product hides its movement history -/

theorem mem_movementsPage {db : DB} {q : MovementsQuery} {ids : List Nat}
    {item : StockMovement × String} (h : item ∈ (movementsPage db q ids).1) :
    ids.contains item.1.productId = true := by
  rw [movementsPage] at h
  dsimp only at h
  obtain ⟨m, hm, heq⟩ := List.mem_map.mp h
  have hm1 : item.1 = m := by rw [← heq]
  have hmem : m ∈ sortByIdDesc
      (db.movements.filter (movementFlt ids q.cursor)) := by
    split at hm
    · exact (List.take_sublist _ _).subset ((List.take_sublist _ _).subset hm)
    · exact (List.take_sublist _ _).subset hm
  have hflt := (List.mem_filter.mp (mem_sortByIdDesc hmem)).2
  rw [movementFlt.eq_def, Bool.and_eq_true] at hflt
  rw [hm1]
  exact hflt.1

theorem mem_listing_product (db : DB) (q : MovementsQuery) (item : StockMovement × String)
    (h : item ∈ (getStockMovementsByUser db q).1) :
    ∃ p ∈ db.products, p.userId = q.userId ∧ p.id = item.1.productId := by
  have key : ∀ {x : Nat},
      x ∈ (userProductsOf db q.userId).map (fun p => p.id) →
      ∃ p ∈ db.products, p.userId = q.userId ∧ p.id = x := by
    intro x hx
    obtain ⟨p, hp, hpid⟩ := List.mem_map.mp hx
    have hp' := List.mem_filter.mp hp
    exact ⟨p, hp'.1, eq_of_beq hp'.2, hpid⟩
  rw [getStockMovementsByUser] at h
  rcases hq : q.productId with _ | pid
  · rw [hq] at h
    dsimp only at h
    have hc := mem_movementsPage h
    exact key (by simpa using hc)
  · rw [hq] at h
    dsimp only at h
    split at h
    · rename_i hcont
      have hc := mem_movementsPage h
      have hx : item.1.productId = pid := by simpa using hc
      rw [hx]
      exact key (by simpa using hcont)
    · simp at h

/-- C10.  Hard-deleting a product leaves every StockMovement record in
place, yet removes the product's id from the catalog, and since the listing
filters movements by the shop's current product ids, none of the deleted
product's historical movements appears in any subsequent listing result. -/
theorem deleteProduct_hides_movements (db : DB) (pid u : Nat)
    (hnodup : (db.products.map (fun p => p.id)).Nodup)
    (hex : ∃ p ∈ db.products, p.id = pid ∧ p.userId = u) :
    (deleteProduct db pid u).movements = db.movements ∧
    ∀ (q : MovementsQuery) (item : StockMovement × String),
      item ∈ (getStockMovementsByUser (deleteProduct db pid u) q).1 →
      item.1.productId ≠ pid := by
  have hgone : ∀ p' ∈ (deleteProduct db pid u).products, p'.id ≠ pid := by
    obtain ⟨p, hp, hpid, hpu⟩ := hex
    rcases deleteOne_cases (fun x => x.id == pid && x.userId == u) db.products with
      ⟨hall, _⟩ | ⟨pre, y, post, hl, hy, _, hd⟩
    · exfalso
      have hcontra := hall p hp
      simp [hpid, hpu] at hcontra
    · rw [Bool.and_eq_true] at hy
      have hyid : y.id = pid := eq_of_beq hy.1
      intro p' hp' hcontra
      rw [deleteProduct] at hp'
      dsimp only at hp'
      rw [hd] at hp'
      rw [hl, List.map_append, List.map_cons] at hnodup
      apply (List.nodup_cons.mp (List.nodup_middle.mp hnodup)).1
      rw [← List.map_append, hyid, ← hcontra]
      exact List.mem_map_of_mem _ hp'
  refine ⟨rfl, ?_⟩
  intro q item hitem hcontra
  obtain ⟨p', hp', _, hpid'⟩ := mem_listing_product _ _ _ hitem
  exact hgone p' hp' (by rw [hpid', hcontra])

theorem deleteProduct_hides_movements_witness :
    ((exDb10.products.map (fun p => p.id)).Nodup) ∧
    (∃ p ∈ exDb10.products, p.id = 1 ∧ p.userId = 1) ∧
    ((deleteProduct exDb10 1 1).movements = exDb10.movements) ∧
    ((⟨⟨11, 2, .IN, 5, .PURCHASE, none⟩, "ยาฆ่าแมลง"⟩ : StockMovement × String).1.productId ≠ 1) ∧
    ((getStockMovementsByUser (deleteProduct exDb10 1 1) ⟨1, none, none, none⟩).1 =
      [(⟨11, 2, .IN, 5, .PURCHASE, none⟩, "ยาฆ่าแมลง")]) :=
  ⟨by decide, by decide,
    (deleteProduct_hides_movements exDb10 1 1 (by decide) (by decide)).1,
    (deleteProduct_hides_movements exDb10 1 1 (by decide) (by decide)).2
      ⟨1, none, none, none⟩ (⟨11, 2, .IN, 5, .PURCHASE, none⟩, "ยาฆ่าแมลง") (by decide),
    by decide⟩

/-! ### C9: partial writes of sales.create persist across a stock failure -/

theorem adjustProductStock_error_neg {db : DB} {i : AdjustStockInput} {e : StockError}
    {db1 : DB} (hneg : i.quantityChange < 0)
    (h : adjustProductStock db i = (.error e, db1)) :
    e = .insufficientStock ∧ db1 = db ∧
    (findOneAndUpdate (adjustFilter i) (adjustUpd i) db.products).1 = none := by
  have hzb : (i.quantityChange == 0) = false := by
    simp only [beq_eq_false_iff_ne, ne_eq]
    omega
  rw [adjustProductStock, hzb] at h
  simp only [Bool.false_eq_true, if_false] at h
  split at h
  · rename_i heq
    rw [if_pos hneg, Prod.mk.injEq, Except.error.injEq] at h
    exact ⟨h.1.symm, h.2.symm, by rw [heq]⟩
  · simp at h

theorem adjustProductStock_ok_fields {db : DB} {i : AdjustStockInput} {p' : Product}
    {db1 : DB} (h : adjustProductStock db i = (.ok p', db1)) :
    db1.products = (findOneAndUpdate (adjustFilter i) (adjustUpd i) db.products).2 ∧
    db1.sales = db.sales ∧ db1.saleItems = db.saleItems ∧ db1.customers = db.customers ∧
    ∃ mv : StockMovement, db1.movements = mv :: db.movements ∧ mv.source = i.source ∧
      mv.type = (if 0 < i.quantityChange then MovementType.IN else MovementType.OUT) := by
  rw [adjustProductStock] at h
  by_cases hz : (i.quantityChange == 0) = true
  · rw [if_pos hz] at h
    simp at h
  · rw [Bool.not_eq_true] at hz
    rw [hz] at h
    simp only [Bool.false_eq_true, if_false] at h
    split at h
    · split at h <;> simp at h
    · rename_i p0 prods heq
      rw [Prod.mk.injEq, Except.ok.injEq] at h
      obtain ⟨_, hdb1⟩ := h
      rw [← hdb1]
      exact ⟨by rw [heq], rfl, rfl, rfl, ⟨_, rfl, rfl, rfl⟩⟩

theorem decrementLoop_error {sid : Nat} {items : List SaleItemInput} {db : DB}
    {e : StockError} {db' : DB}
    (hq : ∀ it ∈ items, 1 ≤ it.quantity)
    (h : decrementLoop sid items db = (.error e, db')) :
    e = .insufficientStock ∧
    db'.sales = db.sales ∧ db'.saleItems = db.saleItems ∧ db'.customers = db.customers ∧
    ∃ k, ∃ hk : k < items.length,
      db'.products = (items.take k).foldl
        (fun ps it => (findOneAndUpdate (adjustFilter (saleAdjInput sid it))
          (adjustUpd (saleAdjInput sid it)) ps).2) db.products ∧
      (findOneAndUpdate (adjustFilter (saleAdjInput sid (items.get ⟨k, hk⟩)))
        (adjustUpd (saleAdjInput sid (items.get ⟨k, hk⟩))) db'.products).1 = none ∧
      ∃ ms, db'.movements = ms ++ db.movements ∧ ms.length = k ∧
        ∀ m ∈ ms, m.source = .SALE ∧ m.type = .OUT := by
  induction items generalizing db with
  | nil =>
    rw [decrementLoop] at h
    simp at h
  | cons it rest ih =>
    have hq1 : 1 ≤ it.quantity := hq it (List.mem_cons_self _ _)
    have hneg : (saleAdjInput sid it).quantityChange < 0 := by
      show -(it.quantity : Int) < 0
      omega
    rw [decrementLoop] at h
    split at h
    · rename_i p0 db1 heq
      obtain ⟨hprod1, hsale1, hitem1, hcust1, mv, hmv1, hsrc1, htyp1⟩ :=
        adjustProductStock_ok_fields heq
      obtain ⟨he, hsales, hitems, hcusts, k, hk, hprod, hfail, ms, hmv, hlen, hms⟩ :=
        ih (fun x hx => hq x (List.mem_cons_of_mem it hx)) h
      refine ⟨he, by rw [hsales, hsale1], by rw [hitems, hitem1], by rw [hcusts, hcust1],
        k + 1, Nat.succ_lt_succ hk, ?_, ?_, ms ++ [mv], ?_, ?_, ?_⟩
      · rw [hprod, hprod1]
        rfl
      · exact hfail
      · rw [hmv, hmv1, List.append_assoc]
        rfl
      · simp [hlen]
      · intro m hm
        rcases List.mem_append.mp hm with hm | hm
        · exact hms m hm
        · rw [List.mem_singleton.mp hm]
          refine ⟨hsrc1, ?_⟩
          rw [htyp1, if_neg (by omega : ¬ (0 : Int) < (saleAdjInput sid it).quantityChange)]
    · rename_i e1 db1 heq
      rw [Prod.mk.injEq, Except.error.injEq] at h
      obtain ⟨he1, hdb1⟩ := h
      obtain ⟨hei, hdbeq, hfnone⟩ := adjustProductStock_error_neg hneg heq
      have hdd : db' = db := by rw [← hdb1, hdbeq]
      refine ⟨by rw [← he1, hei], by rw [hdd], by rw [hdd], by rw [hdd],
        0, Nat.succ_pos _, by rw [hdd]; rfl, ?_, [], by rw [hdd]; rfl, rfl, by simp⟩
      show (findOneAndUpdate (adjustFilter (saleAdjInput sid it))
        (adjustUpd (saleAdjInput sid it)) db'.products).1 = none
      rw [hdd]
      exact hfnone

theorem creditCustomerStep_preserves (db : DB) (u : Nat) (inp : SalesCreateInput)
    (tw : ℚ) :
    (creditCustomerStep db u inp tw).2.products = db.products ∧
    (creditCustomerStep db u inp tw).2.sales = db.sales ∧
    (creditCustomerStep db u inp tw).2.saleItems = db.saleItems ∧
    (creditCustomerStep db u inp tw).2.movements = db.movements := by
  rw [creditCustomerStep]
  split
  · split
    · exact ⟨rfl, rfl, rfl, rfl⟩
    · split
      · exact ⟨rfl, rfl, rfl, rfl⟩
      · exact ⟨rfl, rfl, rfl, rfl⟩
  · exact ⟨rfl, rfl, rfl, rfl⟩

theorem creditCustomerStep_debt (db : DB) (u : Nat) (inp : SalesCreateInput) (tw : ℚ)
    (nm : String) (c : Customer)
    (hnodup : (db.customers.map (fun x => x.id)).Nodup)
    (hpt : inp.paymentType = .credit) (hnm : inp.customerName = some nm)
    (hne : ¬ nm.isEmpty = true) (hfind : getCustomerByName db nm u = some c) :
    ∃ c' ∈ (creditCustomerStep db u inp tw).2.customers,
      c'.id = c.id ∧ c'.totalDebt = c.totalDebt + tw := by
  rw [creditCustomerStep, hpt, hnm]
  dsimp only
  rw [if_neg hne, hfind]
  dsimp only
  rw [updateCustomerDebt]
  dsimp only
  have hcmem : c ∈ db.customers := by
    rw [getCustomerByName] at hfind
    exact List.mem_of_find?_eq_some hfind
  have hex : ∃ y ∈ db.customers, (fun x => x.id == c.id) y = true := ⟨c, hcmem, by simp⟩
  obtain ⟨z, l', heq, hz, hzl, hmem⟩ :=
    exists_findOneAndUpdate_eq_some (fun x => { x with totalDebt := x.totalDebt + tw }) hex
  have hzc : z = c :=
    List.inj_on_of_nodup_map hnodup hzl hcmem (eq_of_beq hz)
  rw [heq]
  subst hzc
  exact ⟨_, hmem, rfl, rfl⟩

/-- C9.  In `sales.create` the Sale, the SaleItems and (for a credit sale
with an existing customer) the debt increment are all written before any
stock decrement; when a decrement fails, those writes and the decrements of
the earlier line items all remain in the store — nothing is rolled back. -/
theorem salesCreate_no_rollback (db : DB) (u : Nat) (inp : SalesCreateInput) (now : Nat)
    (e : StockError) (db' : DB)
    (hq : ∀ it ∈ inp.items, 1 ≤ it.quantity)
    (hnodup : (db.customers.map (fun x => x.id)).Nodup)
    (h : salesCreate db u inp now = (.error e, db')) :
    ∃ sid cid,
      db'.sales = db.sales ++ [saleRecOf sid cid u inp now] ∧
      db'.saleItems = db.saleItems ++ inp.items.map (saleItemRecOf sid) ∧
      (∀ nm c, inp.paymentType = .credit → inp.customerName = some nm →
        ¬ nm.isEmpty = true → getCustomerByName db nm u = some c →
        ∃ c' ∈ db'.customers, c'.id = c.id ∧
          c'.totalDebt = c.totalDebt +
            (saleTotal inp + saleTotal inp * inp.vatRate.getD 0)) ∧
      e = .insufficientStock ∧
      ∃ k, ∃ hk : k < inp.items.length,
        db'.products = (inp.items.take k).foldl
          (fun ps it => (findOneAndUpdate (adjustFilter (saleAdjInput sid it))
            (adjustUpd (saleAdjInput sid it)) ps).2) db.products ∧
        (findOneAndUpdate (adjustFilter (saleAdjInput sid (inp.items.get ⟨k, hk⟩)))
          (adjustUpd (saleAdjInput sid (inp.items.get ⟨k, hk⟩))) db'.products).1 = none ∧
        ∃ ms, db'.movements = ms ++ db.movements ∧ ms.length = k ∧
          ∀ m ∈ ms, m.source = .SALE ∧ m.type = .OUT := by
  rw [salesCreate] at h
  try dsimp only at h
  split at h
  · simp at h
  · rename_i e1 db3 heq
    rw [Prod.mk.injEq, Except.error.injEq] at h
    obtain ⟨he1, hdb3⟩ := h
    simp only [createSale, createSaleItems] at heq
    obtain ⟨hei, hsales, hitems, hcusts, k, hk, hprod, hfail, ms, hmv, hlen, hms⟩ :=
      decrementLoop_error hq heq
    obtain ⟨hcp, hcs, hci, hcm⟩ := creditCustomerStep_preserves db u inp
      (saleTotal inp + saleTotal inp * inp.vatRate.getD 0)
    try dsimp only at hsales hitems hcusts hprod hmv
    refine ⟨(creditCustomerStep db u inp
        (saleTotal inp + saleTotal inp * inp.vatRate.getD 0)).2.nextId,
      (creditCustomerStep db u inp
        (saleTotal inp + saleTotal inp * inp.vatRate.getD 0)).1,
      ?_, ?_, ?_, by rw [← he1, hei], k, hk, ?_, ?_, ms, ?_, hlen, hms⟩
    · rw [← hdb3, hsales, hcs]
      rfl
    · rw [← hdb3, hitems, hci]
      rfl
    · intro nm c hpt hnm hne hfind
      obtain ⟨c', hc'mem, hc'id, hc'debt⟩ := creditCustomerStep_debt db u inp
        (saleTotal inp + saleTotal inp * inp.vatRate.getD 0) nm c hnodup hpt hnm hne hfind
      refine ⟨c', ?_, hc'id, hc'debt⟩
      rw [← hdb3, hcusts]
      exact hc'mem
    · rw [← hdb3, hprod, hcp]
    · rw [← hdb3]
      exact hfail
    · rw [← hdb3, hmv, hcm]

theorem salesCreate_no_rollback_witness :
    (∀ it ∈ exInp9.items, 1 ≤ it.quantity) ∧
    ((exDb9.customers.map (fun x => x.id)).Nodup) ∧
    (salesCreate exDb9 1 exInp9 100 = (.error .insufficientStock, exDb9')) ∧
    (∃ sid cid,
      exDb9'.sales = exDb9.sales ++ [saleRecOf sid cid 1 exInp9 100] ∧
      exDb9'.saleItems = exDb9.saleItems ++ exInp9.items.map (saleItemRecOf sid) ∧
      (∀ nm c, exInp9.paymentType = .credit → exInp9.customerName = some nm →
        ¬ nm.isEmpty = true → getCustomerByName exDb9 nm 1 = some c →
        ∃ c' ∈ exDb9'.customers, c'.id = c.id ∧
          c'.totalDebt = c.totalDebt +
            (saleTotal exInp9 + saleTotal exInp9 * exInp9.vatRate.getD 0)) ∧
      StockError.insufficientStock = .insufficientStock ∧
      ∃ k, ∃ hk : k < exInp9.items.length,
        exDb9'.products = (exInp9.items.take k).foldl
          (fun ps it => (findOneAndUpdate (adjustFilter (saleAdjInput sid it))
            (adjustUpd (saleAdjInput sid it)) ps).2) exDb9.products ∧
        (findOneAndUpdate (adjustFilter (saleAdjInput sid (exInp9.items.get ⟨k, hk⟩)))
          (adjustUpd (saleAdjInput sid (exInp9.items.get ⟨k, hk⟩)))
            exDb9'.products).1 = none ∧
        ∃ ms, exDb9'.movements = ms ++ exDb9.movements ∧ ms.length = k ∧
          ∀ m ∈ ms, m.source = .SALE ∧ m.type = .OUT) := by
  have h9 : salesCreate exDb9 1 exInp9 100 = (.error .insufficientStock, exDb9') := rfl
  exact ⟨by decide, by decide, h9,
    salesCreate_no_rollback exDb9 1 exInp9 100 .insufficientStock exDb9'
      (by decide) (by decide) h9⟩

/-! ### C5: the precondition chain of createFullTaxInvoice -/

theorem getSettings_invoices (db : DB) : (getSettings db).2.invoices = db.invoices := by
  rw [getSettings]
  split <;> rfl

/-- C5 counterexample.  With the Settings collection still empty, the
seller-information check lazily creates the blank-default Settings record —
a write — before rejecting the invoice with the seller-incomplete error, so
not every failing check fires before any write. -/
theorem createInvoice_settings_write_cx :
    ((createFullTaxInvoice exDb5c 1 1 "บริษัท ก" "ที่อยู่ ข" none 2026 20).1 =
      .error (.sellerIncomplete [.sName, .sAddress, .sTaxId])) ∧
    exDb5c.settings = none ∧
    ((createFullTaxInvoice exDb5c 1 1 "บริษัท ก" "ที่อยู่ ข" none 2026 20).2.settings =
      some defaultSettings) ∧
    ((createFullTaxInvoice exDb5c 1 1 "บริษัท ก" "ที่อยู่ ข" none 2026 20).2 ≠ exDb5c) := by
  have h1 : (createFullTaxInvoice exDb5c 1 1 "บริษัท ก" "ที่อยู่ ข" none 2026 20) =
      (.error (.sellerIncomplete [.sName, .sAddress, .sTaxId]),
        { exDb5c with settings := some defaultSettings }) := by
    norm_num +decide [createFullTaxInvoice, getSettings, missingSellerFields, isBlank,
      defaultSettings, exDb5c, exVatSale, emptyDB]
  refine ⟨by rw [h1], rfl, by rw [h1], ?_⟩
  rw [h1]
  intro hcontra
  have := congrArg DB.settings hcontra
  simp [exDb5c, emptyDB] at this

/-- C5 amended.  The four preconditions of `createFullTaxInvoice` are
checked in source order, each with its own distinct error; the first three
fail before any write, the seller-information check may first lazily create
the blank-default Settings singleton; the seller-incomplete error enumerates
exactly the blank fields; no failing call ever writes an invoice, and a
successful call appends exactly one issued invoice. -/
theorem createFullTaxInvoice_checks (db : DB) (u sid : Nat) (bn ba : String)
    (bt : Option String) (year now : Nat) :
    (db.sales.find? (fun s => s.id == sid) = none →
      createFullTaxInvoice db u sid bn ba bt year now = (.error .saleNotFound, db)) ∧
    (∀ sale, db.sales.find? (fun s => s.id == sid) = some sale → sale.vatRate ≤ 0 →
      createFullTaxInvoice db u sid bn ba bt year now = (.error .notEligible, db)) ∧
    (∀ sale, db.sales.find? (fun s => s.id == sid) = some sale → 0 < sale.vatRate →
      (∃ i ∈ db.invoices, i.saleId = sid) →
      createFullTaxInvoice db u sid bn ba bt year now = (.error .alreadyExists, db)) ∧
    (∀ sale, db.sales.find? (fun s => s.id == sid) = some sale → 0 < sale.vatRate →
      (∀ i ∈ db.invoices, i.saleId ≠ sid) →
      missingSellerFields (getSettings db).1 ≠ [] →
      createFullTaxInvoice db u sid bn ba bt year now =
        (.error (.sellerIncomplete (missingSellerFields (getSettings db).1)),
          (getSettings db).2)) ∧
    (∀ (f : SellerField) (st : Settings),
      f ∈ missingSellerFields st ↔ isBlank (sellerFieldValue st f) = true) ∧
    (∀ er db', createFullTaxInvoice db u sid bn ba bt year now = (.error er, db') →
      db'.invoices = db.invoices) ∧
    (∀ iv db', createFullTaxInvoice db u sid bn ba bt year now = (.ok iv, db') →
      ∃ inv, db'.invoices = db.invoices ++ [inv] ∧ inv.status = .issued ∧
        inv.saleId = sid ∧ inv.userId = u ∧
        inv.invoiceNumber = generateInvoiceNumber (getSettings db).2 u year) := by
  refine ⟨?_, ?_, ?_, ?_, ?_, ?_, ?_⟩
  · intro h1
    rw [createFullTaxInvoice, h1]
  · intro sale h1 h2
    rw [createFullTaxInvoice, h1]
    dsimp only
    rw [if_pos h2]
  · intro sale h1 h2 hex
    rw [createFullTaxInvoice, h1]
    dsimp only
    rw [if_neg (not_le.mpr h2)]
    obtain ⟨i, hi, hisid⟩ := hex
    have hsome : (db.invoices.find? (fun i => i.saleId == sid)).isSome :=
      List.find?_isSome.mpr ⟨i, hi, by simp [hisid]⟩
    obtain ⟨j, hj⟩ := Option.isSome_iff_exists.mp hsome
    rw [hj]
  · intro sale h1 h2 hnone hmiss
    rw [createFullTaxInvoice, h1]
    dsimp only
    rw [if_neg (not_le.mpr h2)]
    have hfn : db.invoices.find? (fun i => i.saleId == sid) = none :=
      List.find?_eq_none.mpr (fun i hi => by simp [hnone i hi])
    rw [hfn]
    dsimp only
    rw [if_neg (by simpa [List.isEmpty_iff] using hmiss)]
  · intro f st
    cases f <;>
      (simp only [missingSellerFields, sellerFieldValue]
       split_ifs <;> simp_all)
  · intro er db' h
    rw [createFullTaxInvoice] at h
    split at h
    · rw [Prod.mk.injEq] at h
      rw [← h.2]
    · split at h
      · rw [Prod.mk.injEq] at h
        rw [← h.2]
      · split at h
        · rw [Prod.mk.injEq] at h
          rw [← h.2]
        · dsimp only at h
          split at h
          · simp at h
          · rw [Prod.mk.injEq] at h
            rw [← h.2]
            exact getSettings_invoices db
  · intro iv db' h
    rw [createFullTaxInvoice] at h
    split at h
    · simp at h
    · split at h
      · simp at h
      · split at h
        · simp at h
        · dsimp only at h
          split at h
          · rw [Prod.mk.injEq, Except.ok.injEq] at h
            obtain ⟨hiv, hdb'⟩ := h
            rw [← hdb']
            dsimp only
            rw [getSettings_invoices db]
            exact ⟨_, rfl, rfl, rfl, rfl, rfl⟩
          · simp at h

theorem createFullTaxInvoice_checks_witness :
    (exDb5.sales.find? (fun s => s.id == 3) = none) ∧
    (createFullTaxInvoice exDb5 1 3 "ก" "ข" none 2026 20 = (.error .saleNotFound, exDb5)) ∧
    (exDb5.sales.find? (fun s => s.id == 2) = some (exSale 2 50 .cash 11)) ∧
    ((exSale 2 50 .cash 11).vatRate ≤ 0) ∧
    (createFullTaxInvoice exDb5 1 2 "ก" "ข" none 2026 20 = (.error .notEligible, exDb5)) ∧
    (exDb5c.sales.find? (fun s => s.id == 1) = some exVatSale) ∧
    (0 < exVatSale.vatRate) ∧ (∀ i ∈ exDb5c.invoices, i.saleId ≠ 1) ∧
    (missingSellerFields (getSettings exDb5c).1 ≠ []) ∧
    (createFullTaxInvoice exDb5c 1 1 "ก" "ข" none 2026 20 =
      (.error (.sellerIncomplete (missingSellerFields (getSettings exDb5c).1)),
        (getSettings exDb5c).2)) := by
  have hv : (0 : ℚ) < exVatSale.vatRate := by norm_num [exVatSale]
  refine ⟨rfl, (createFullTaxInvoice_checks exDb5 1 3 "ก" "ข" none 2026 20).1 rfl,
    rfl, by norm_num [exSale],
    (createFullTaxInvoice_checks exDb5 1 2 "ก" "ข" none 2026 20).2.1
      (exSale 2 50 .cash 11) rfl (by norm_num [exSale]),
    rfl, hv, by decide, by decide,
    (createFullTaxInvoice_checks exDb5c 1 1 "ก" "ข" none 2026 20).2.2.2.1
      exVatSale rfl hv (by decide) (by decide)⟩

/-! ### C4: decimal-string machinery for the invoice numbering -/

theorem natDigitsAux_congr :
    ∀ fuel1 fuel2 n, n < fuel1 → n < fuel2 →
      natDigitsAux fuel1 n = natDigitsAux fuel2 n := by
  intro fuel1
  induction fuel1 with
  | zero => omega
  | succ f1 ih =>
    intro fuel2 n h1 h2
    cases fuel2 with
    | zero => omega
    | succ f2 =>
      rw [natDigitsAux, natDigitsAux]
      by_cases h10 : n < 10
      · rw [if_pos h10, if_pos h10]
      · rw [if_neg h10, if_neg h10]
        have hdiv : n / 10 < n := Nat.div_lt_self (by omega) (by omega)
        rw [ih f2 (n / 10) (by omega) (by omega)]

theorem natDigits_eq (n : Nat) :
    natDigits n = if n < 10 then [digChar n]
      else natDigits (n / 10) ++ [digChar (n % 10)] := by
  rw [natDigits, natDigitsAux]
  by_cases h10 : n < 10
  · rw [if_pos h10, if_pos h10]
  · rw [if_neg h10, if_neg h10]
    have hdiv : n / 10 < n := Nat.div_lt_self (by omega) (by omega)
    rw [natDigitsAux_congr n (n / 10 + 1) (n / 10) (by omega) (by omega)]
    rfl

theorem digChar_toNat {d : Nat} (h : d < 10) : (digChar d).toNat = 48 + d := by
  interval_cases d <;> decide

theorem isDigitB_digChar {d : Nat} (h : d < 10) : isDigitB (digChar d) = true := by
  interval_cases d <;> decide

theorem natDigits_all_digit (n : Nat) : (natDigits n).all isDigitB = true := by
  induction n using Nat.strong_induction_on with
  | _ n ih =>
    rw [natDigits_eq]
    by_cases h10 : n < 10
    · rw [if_pos h10]
      simp [isDigitB_digChar h10]
    · rw [if_neg h10]
      rw [List.all_append]
      have hdiv : n / 10 < n := Nat.div_lt_self (by omega) (by omega)
      simp [ih (n / 10) hdiv, isDigitB_digChar (Nat.mod_lt n (by omega))]

theorem natDigits_ne_nil (n : Nat) : natDigits n ≠ [] := by
  rw [natDigits_eq]
  by_cases h10 : n < 10
  · rw [if_pos h10]
    simp
  · rw [if_neg h10]
    simp

theorem digitsVal_append_singleton (l : List Char) (c : Char) :
    digitsVal (l ++ [c]) = 10 * digitsVal l + (c.toNat - 48) := by
  induction l with
  | nil => simp [digitsVal]
  | cons a as ih =>
    show digitsVal (a :: (as ++ [c])) = _
    rw [digitsVal, digitsVal, ih, List.length_append]
    simp [pow_succ]
    ring

theorem digitsVal_natDigits (n : Nat) : digitsVal (natDigits n) = n := by
  induction n using Nat.strong_induction_on with
  | _ n ih =>
    rw [natDigits_eq]
    by_cases h10 : n < 10
    · rw [if_pos h10]
      rw [digitsVal, digitsVal, digChar_toNat h10]
      simp
    · rw [if_neg h10]
      have hdiv : n / 10 < n := Nat.div_lt_self (by omega) (by omega)
      rw [digitsVal_append_singleton, ih (n / 10) hdiv,
        digChar_toNat (Nat.mod_lt n (by omega))]
      omega

theorem natDigits_length_le {n k : Nat} (h : n < 10 ^ k) (hk : 1 ≤ k) :
    (natDigits n).length ≤ k := by
  induction n using Nat.strong_induction_on generalizing k with
  | _ n ih =>
    rw [natDigits_eq]
    by_cases h10 : n < 10
    · rw [if_pos h10]
      simpa using hk
    · rw [if_neg h10]
      have hdiv : n / 10 < n := Nat.div_lt_self (by omega) (by omega)
      rcases k with _ | _ | k
      · omega
      · exfalso
        simp at h
        omega
      · have hb : n / 10 < 10 ^ (k + 1) := by
          rw [Nat.div_lt_iff_lt_mul (by omega : (0:Nat) < 10)]
          calc n < 10 ^ (k + 2) := h
          _ = 10 ^ (k + 1) * 10 := by ring
        have := ih (n / 10) hdiv hb (by omega)
        simp only [List.length_append, List.length_cons, List.length_nil]
        omega

theorem natDigits_length_ge {n k : Nat} (h : 10 ^ k ≤ n) :
    k + 1 ≤ (natDigits n).length := by
  induction n using Nat.strong_induction_on generalizing k with
  | _ n ih =>
    rw [natDigits_eq]
    by_cases h10 : n < 10
    · rw [if_pos h10]
      have : k = 0 := by
        by_contra hk
        have h1 : 1 ≤ k := by omega
        have : 10 ^ 1 ≤ 10 ^ k := Nat.pow_le_pow_right (by omega) h1
        simp at this
        omega
      simp [this]
    · rw [if_neg h10]
      have hdiv : n / 10 < n := Nat.div_lt_self (by omega) (by omega)
      cases k with
      | zero => simp
      | succ k =>
        have hb : 10 ^ k ≤ n / 10 := by
          rw [Nat.le_div_iff_mul_le (by omega : (0:Nat) < 10)]
          calc 10 ^ k * 10 = 10 ^ (k + 1) := by ring
          _ ≤ n := h
        have := ih (n / 10) hdiv hb
        simp only [List.length_append, List.length_cons, List.length_nil]
        omega

theorem natDigits_length_year {year : Nat} (h1 : 1000 ≤ year) (h2 : year ≤ 9999) :
    (natDigits year).length = 4 := by
  have hle := natDigits_length_le (show year < 10 ^ 4 by omega) (by omega)
  have hge := natDigits_length_ge (show 10 ^ 3 ≤ year by omega)
  omega

theorem pad6_length {n : Nat} (h : n < 10 ^ 6) : (pad6 n).length = 6 := by
  have hle := natDigits_length_le h (by omega)
  have hge : 1 ≤ (natDigits n).length := by
    rcases hnil : natDigits n with _ | ⟨c, cs⟩
    · exact absurd hnil (natDigits_ne_nil n)
    · simp
  rw [pad6, List.length_append, List.length_replicate]
  omega

theorem pad6_all_digit (n : Nat) : (pad6 n).all isDigitB = true := by
  rw [pad6, List.all_append]
  have hz : (List.replicate (6 - (natDigits n).length) '0').all isDigitB = true := by
    rw [List.all_eq_true]
    intro c hc
    rw [List.eq_of_mem_replicate hc]
    decide
  simp [hz, natDigits_all_digit n]

theorem digitsVal_replicate_zero (z : Nat) (l : List Char) :
    digitsVal (List.replicate z '0' ++ l) = digitsVal l := by
  induction z with
  | zero => simp
  | succ z ih =>
    show digitsVal ('0' :: (List.replicate z '0' ++ l)) = digitsVal l
    rw [digitsVal, ih]
    norm_num
    decide

theorem digitsVal_pad6 (n : Nat) : digitsVal (pad6 n) = n := by
  rw [pad6, digitsVal_replicate_zero, digitsVal_natDigits]

theorem digitsVal_lt_pow {l : List Char} (h : l.all isDigitB = true) :
    digitsVal l < 10 ^ l.length := by
  induction l with
  | nil => simp [digitsVal]
  | cons c cs ih =>
    rw [List.all_cons, Bool.and_eq_true] at h
    have hd : c.toNat - 48 ≤ 9 := by
      have := h.1
      rw [isDigitB, Bool.and_eq_true] at this
      have h1 := of_decide_eq_true this.1
      have h2 := of_decide_eq_true this.2
      omega
    have hcs := ih h.2
    rw [digitsVal, List.length_cons, pow_succ]
    have h1 : (c.toNat - 48) * 10 ^ cs.length ≤ 9 * 10 ^ cs.length :=
      Nat.mul_le_mul_right _ hd
    omega

theorem head_weight_lt {da db B v1 v2 : Nat} (hd : da < db) (hv1 : v1 < B) :
    da * B + v1 < db * B + v2 := by
  have h1 : da * B + v1 < (da + 1) * B := by
    rw [Nat.succ_mul]
    omega
  have h2 : (da + 1) * B ≤ db * B := Nat.mul_le_mul_right B hd
  omega

theorem digit_toNat_bounds {c : Char} (h : isDigitB c = true) :
    48 ≤ c.toNat ∧ c.toNat ≤ 57 := by
  rw [isDigitB, Bool.and_eq_true] at h
  exact ⟨of_decide_eq_true h.1, of_decide_eq_true h.2⟩

theorem lex_iff_val_lt :
    ∀ {l1 l2 : List Char}, l1.length = l2.length →
      l1.all isDigitB = true → l2.all isDigitB = true →
      (strLtListB l1 l2 = true ↔ digitsVal l1 < digitsVal l2) := by
  intro l1
  induction l1 with
  | nil =>
    intro l2 hlen _ _
    cases l2 with
    | nil => simp [strLtListB, digitsVal]
    | cons b bs => simp at hlen
  | cons a as ih =>
    intro l2 hlen h1 h2
    cases l2 with
    | nil => simp at hlen
    | cons b bs =>
      rw [List.all_cons, Bool.and_eq_true] at h1 h2
      obtain ⟨ha, has⟩ := h1
      obtain ⟨hb, hbs⟩ := h2
      have hlen' : as.length = bs.length := by simpa using hlen
      obtain ⟨ha1, ha2⟩ := digit_toNat_bounds ha
      obtain ⟨hb1, hb2⟩ := digit_toNat_bounds hb
      rw [strLtListB, digitsVal, digitsVal, hlen']
      by_cases hab : a.toNat < b.toNat
      · rw [if_pos hab]
        simp only [true_iff]
        exact head_weight_lt (by omega) (hlen' ▸ digitsVal_lt_pow has)
      · rw [if_neg hab]
        by_cases hba : b.toNat < a.toNat
        · rw [if_pos hba]
          simp only [Bool.false_eq_true, false_iff, not_lt]
          exact le_of_lt (head_weight_lt (by omega) (digitsVal_lt_pow hbs))
        · rw [if_neg hba]
          have heq : a.toNat - 48 = b.toNat - 48 := by omega
          rw [heq, ih hlen' has hbs]
          omega

theorem strLtListB_irrefl (l : List Char) : strLtListB l l = false := by
  induction l with
  | nil => rfl
  | cons a as ih =>
    rw [strLtListB, if_neg (lt_irrefl _), if_neg (lt_irrefl _)]
    exact ih

theorem strLtListB_trans :
    ∀ {l1 l2 l3 : List Char}, strLtListB l1 l2 = true → strLtListB l2 l3 = true →
      strLtListB l1 l3 = true := by
  intro l1
  induction l1 with
  | nil =>
    intro l2 l3 h12 h23
    cases l2 with
    | nil => exact h23
    | cons b bs =>
      cases l3 with
      | nil => exact Bool.noConfusion (show false = true from h23)
      | cons c cs => rfl
  | cons a as ih =>
    intro l2 l3 h12 h23
    cases l2 with
    | nil => exact Bool.noConfusion (show false = true from h12)
    | cons b bs =>
      cases l3 with
      | nil => exact Bool.noConfusion (show false = true from h23)
      | cons c cs =>
        rw [strLtListB] at h12 h23 ⊢
        by_cases hab : a.toNat < b.toNat
        · by_cases hbc : b.toNat < c.toNat
          · rw [if_pos (by omega : a.toNat < c.toNat)]
          · rw [if_neg hbc] at h23
            by_cases hcb : c.toNat < b.toNat
            · simp [hcb] at h23
            · rw [if_pos (by omega : a.toNat < c.toNat)]
        · rw [if_neg hab] at h12
          by_cases hba : b.toNat < a.toNat
          · simp [hba] at h12
          · rw [if_neg hba] at h12
            by_cases hbc : b.toNat < c.toNat
            · rw [if_pos (by omega : a.toNat < c.toNat)]
            · rw [if_neg hbc] at h23
              by_cases hcb : c.toNat < b.toNat
              · simp [hcb] at h23
              · rw [if_neg hcb] at h23
                rw [if_neg (by omega : ¬ a.toNat < c.toNat),
                  if_neg (by omega : ¬ c.toNat < a.toNat)]
                exact ih h12 h23

theorem strLtListB_connex :
    ∀ {l1 l2 : List Char}, strLtListB l1 l2 = false → strLtListB l2 l1 = false →
      l1 = l2 := by
  intro l1
  induction l1 with
  | nil =>
    intro l2 h12 _
    cases l2 with
    | nil => rfl
    | cons b bs => exact Bool.noConfusion (show true = false from h12)
  | cons a as ih =>
    intro l2 h12 h21
    cases l2 with
    | nil => exact Bool.noConfusion (show true = false from h21)
    | cons b bs =>
      rw [strLtListB] at h12 h21
      by_cases hab : a.toNat < b.toNat
      · simp [hab] at h12
      · rw [if_neg hab] at h12
        by_cases hba : b.toNat < a.toNat
        · simp [hba] at h21
        · rw [if_neg hba, if_neg hab] at h21
          rw [if_neg hba] at h12
          have hc : a = b :=
            Char.ofNat_toNat a ▸ Char.ofNat_toNat b ▸
              congrArg Char.ofNat (by omega : a.toNat = b.toNat)
          rw [hc, ih h12 h21]

theorem strLtListB_append_common :
    ∀ (p x y : List Char), strLtListB (p ++ x) (p ++ y) = strLtListB x y := by
  intro p
  induction p with
  | nil => intro x y; rfl
  | cons a as ih =>
    intro x y
    show strLtListB (a :: (as ++ x)) (a :: (as ++ y)) = _
    rw [strLtListB, if_neg (lt_irrefl _), if_neg (lt_irrefl _)]
    exact ih x y

theorem pfxMatch_append (p t : List Char) : pfxMatch p (p ++ t) = true := by
  induction p with
  | nil => rfl
  | cons a as ih => simp [pfxMatch, ih]

theorem pfxMatch_eq_append {p s : List Char} (h : pfxMatch p s = true) :
    ∃ t, s = p ++ t := by
  induction p generalizing s with
  | nil => exact ⟨s, rfl⟩
  | cons a as ih =>
    cases s with
    | nil => simp [pfxMatch] at h
    | cons b bs =>
      rw [pfxMatch, Bool.and_eq_true] at h
      obtain ⟨t, ht⟩ := ih h.2
      exact ⟨t, by rw [eq_of_beq h.1, ht]; rfl⟩

theorem parseTaxSeq_mkInvNum {year k : Nat} (h1 : 1000 ≤ year) (h2 : year ≤ 9999) :
    parseTaxSeq (mkInvNum year k) = some k := by
  have hy4 := natDigits_length_year h1 h2
  have hdig4 := natDigits_all_digit year
  rcases hl : natDigits year with _ | ⟨a, _ | ⟨b, _ | ⟨c, _ | ⟨d, _ | ⟨e, tl⟩⟩⟩⟩⟩ <;>
    rw [hl] at hy4 <;> simp at hy4
  rw [hl] at hdig4
  simp only [List.all_cons, List.all_nil, Bool.and_eq_true, Bool.and_true] at hdig4
  obtain ⟨hda, hdb, hdc, hdd⟩ := hdig4
  have hdata : (mkInvNum year k).data =
      'T' :: 'A' :: 'X' :: '-' :: a :: b :: c :: d :: '-' :: pad6 k := by
    show (pfxChars year ++ pad6 k) = _
    rw [pfxChars, hl]
    rfl
  have hpne : (pad6 k).isEmpty = false := by
    have hne : pad6 k ≠ [] := by
      rw [pad6]
      intro hcon
      rcases List.append_eq_nil.mp hcon with ⟨_, h⟩
      exact natDigits_ne_nil k h
    rcases hp : pad6 k with _ | _
    · exact absurd hp hne
    · rfl
  rw [parseTaxSeq, hdata]
  show (if (isDigitB a && isDigitB b && isDigitB c && isDigitB d &&
      !(pad6 k).isEmpty && (pad6 k).all isDigitB) = true then
      some (digitsVal (pad6 k)) else none) = some k
  rw [if_pos (by simp [hda, hdb, hdc, hdd, hpne, pad6_all_digit k])]
  rw [digitsVal_pad6]

theorem strLtB_trans {a b c : String} (h1 : strLtB a b = true) (h2 : strLtB b c = true) :
    strLtB a c = true :=
  strLtListB_trans h1 h2

theorem maxStr_go (l : List String) :
    ∀ b0 : String, ∃ b, l.foldl
      (fun acc s =>
        match acc with
        | none => some s
        | some b => if strLtB b s then some s else some b) (some b0) = some b ∧
      (b = b0 ∨ b ∈ l) ∧ strLtB b b0 = false ∧ ∀ x ∈ l, strLtB b x = false := by
  induction l with
  | nil =>
    intro b0
    exact ⟨b0, rfl, Or.inl rfl, strLtListB_irrefl _, by simp⟩
  | cons s ss ih =>
    intro b0
    rw [List.foldl_cons]
    by_cases h0 : strLtB b0 s = true
    · obtain ⟨b, hfold, hb, hbs, hall⟩ := ih s
      refine ⟨b, ?_, ?_, ?_, ?_⟩
      · dsimp only
        rw [if_pos h0]
        exact hfold
      · rcases hb with hb | hb
        · exact Or.inr (hb ▸ List.mem_cons_self _ _)
        · exact Or.inr (List.mem_cons_of_mem s hb)
      · by_contra hc
        rw [Bool.not_eq_false] at hc
        have := strLtB_trans hc h0
        rw [hbs] at this
        exact Bool.noConfusion this
      · intro x hx
        rcases List.mem_cons.mp hx with hx | hx
        · rw [hx]
          exact hbs
        · exact hall x hx
    · obtain ⟨b, hfold, hb, hbb0, hall⟩ := ih b0
      refine ⟨b, ?_, ?_, hbb0, ?_⟩
      · dsimp only
        rw [if_neg h0]
        exact hfold
      · rcases hb with hb | hb
        · exact Or.inl hb
        · exact Or.inr (List.mem_cons_of_mem s hb)
      · intro x hx
        rcases List.mem_cons.mp hx with hx | hx
        · rw [hx]
          by_contra hc
          rw [Bool.not_eq_false] at hc
          by_cases h0b : strLtB b0 b = true
          · exact h0 (strLtB_trans h0b hc)
          · rw [Bool.not_eq_true] at h0b
            have hd : b0.data = b.data := strLtListB_connex h0b hbb0
            rw [strLtB, ← hd] at hc
            exact h0 hc
        · exact hall x hx

theorem maxStr_spec {l : List String} (h : l ≠ []) :
    ∃ b, maxStr l = some b ∧ b ∈ l ∧ ∀ x ∈ l, strLtB b x = false := by
  cases l with
  | nil => exact absurd rfl h
  | cons s ss =>
    obtain ⟨b, hfold, hb, hbs, hall⟩ := maxStr_go ss s
    refine ⟨b, ?_, ?_, ?_⟩
    · rw [maxStr, List.foldl_cons]
      exact hfold
    · rcases hb with hb | hb
      · exact hb ▸ List.mem_cons_self _ _
      · exact List.mem_cons_of_mem s hb
    · intro x hx
      rcases List.mem_cons.mp hx with hx | hx
      · rw [hx]
        exact hbs
      · exact hall x hx

theorem foldl_max_ge (l : List Nat) : ∀ a : Nat,
    a ≤ l.foldl max a ∧ ∀ x ∈ l, x ≤ l.foldl max a := by
  induction l with
  | nil =>
    intro a
    exact ⟨le_refl a, by simp⟩
  | cons y ys ih =>
    intro a
    have h := ih (max a y)
    rw [List.foldl_cons]
    refine ⟨le_trans (le_max_left a y) h.1, ?_⟩
    intro x hx
    rcases List.mem_cons.mp hx with hx | hx
    · rw [hx]
      exact le_trans (le_max_right a y) h.1
    · exact h.2 x hx

theorem foldl_max_le {l : List Nat} : ∀ {a m : Nat}, a ≤ m → (∀ x ∈ l, x ≤ m) →
    l.foldl max a ≤ m := by
  induction l with
  | nil =>
    intro a m ha _
    exact ha
  | cons y ys ih =>
    intro a m ha hl
    rw [List.foldl_cons]
    exact ih (max_le ha (hl y (List.mem_cons_self _ _)))
      (fun x hx => hl x (List.mem_cons_of_mem y hx))

theorem mkInvNum_lt (year : Nat) {a b : Nat} (ha : a < 10 ^ 6) (hb : b < 10 ^ 6) :
    (strLtB (mkInvNum year a) (mkInvNum year b) = true ↔ a < b) := by
  show strLtListB (pfxChars year ++ pad6 a) (pfxChars year ++ pad6 b) = true ↔ a < b
  rw [strLtListB_append_common,
    lex_iff_val_lt (by rw [pad6_length ha, pad6_length hb]) (pad6_all_digit a)
      (pad6_all_digit b),
    digitsVal_pad6, digitsVal_pad6]

theorem relevantNums_cancel (db : DB) (iid u2 u year : Nat) :
    relevantNums (cancelFullTaxInvoice db iid u2).2 u year = relevantNums db u year := by
  rw [cancelFullTaxInvoice]
  split
  · rfl
  · split
    · rfl
    · dsimp only
      rcases hfu : findOneAndUpdate (fun i => i.id == iid && i.userId == u2)
          (fun i => { i with status := InvStatus.cancelled }) db.invoices with ⟨o, l'⟩
      cases o with
      | none =>
        have h2 := (findOneAndUpdate_fst_none (by rw [hfu])).2
        rw [hfu] at h2
        have h2' : l' = db.invoices := h2
        rw [relevantNums, relevantNums]
        dsimp only
        rw [hfu]
        dsimp only
        rw [h2']
      | some x =>
        obtain ⟨pre, y, post, hl, _, _, _, hl'⟩ := findOneAndUpdate_eq_some hfu
        rw [relevantNums, relevantNums]
        dsimp only
        rw [hfu]
        dsimp only
        rw [hl', hl, List.filter_append, List.filter_append, List.map_append,
          List.map_append]
        congr 1
        rw [List.filter_cons, List.filter_cons]
        split
        · rfl
        · rfl

theorem gen_eq_of_relevantNums {A B : DB} {u year : Nat}
    (h : relevantNums A u year = relevantNums B u year) :
    generateInvoiceNumber A u year = generateInvoiceNumber B u year := by
  rw [generateInvoiceNumber, generateInvoiceNumber, h]

/-- C4.  Invoice numbers are scoped per shop and year: the first generated
number of a year is TAX-year-000001; with wellformed existing numbers the
next generated number is the highest existing sequence plus one, padded to
six digits; the generated number collides with no existing invoice number of
the shop (cancelled ones included); and cancelling an invoice — which only
flips its status — does not change the generator's result, so a cancelled
number is never handed out again. -/
theorem invoice_numbering (db : DB) (u year invoiceId u2 : Nat)
    (hy1 : 1000 ≤ year) (hy2 : year ≤ 9999)
    (hwf : ∀ s ∈ relevantNums db u year,
      s = mkInvNum year (invSeqVal s) ∧ 1 ≤ invSeqVal s ∧ invSeqVal s ≤ 999998) :
    (relevantNums db u year = [] → generateInvoiceNumber db u year = mkInvNum year 1) ∧
    (relevantNums db u year ≠ [] →
      generateInvoiceNumber db u year = mkInvNum year (maxSeq db u year + 1)) ∧
    (∀ i ∈ db.invoices, i.userId = u →
      i.invoiceNumber ≠ generateInvoiceNumber db u year) ∧
    (generateInvoiceNumber (cancelFullTaxInvoice db invoiceId u2).2 u year =
      generateInvoiceNumber db u year) := by
  have hconj1 : relevantNums db u year = [] →
      generateInvoiceNumber db u year = mkInvNum year 1 := by
    intro h
    rw [generateInvoiceNumber, h]
    rfl
  have hconj2 : relevantNums db u year ≠ [] →
      generateInvoiceNumber db u year = mkInvNum year (maxSeq db u year + 1) := by
    intro hne
    obtain ⟨b, hmax, hbmem, hball⟩ := maxStr_spec hne
    obtain ⟨hbeq, hb1, hb2⟩ := hwf b hbmem
    have hseq : maxSeq db u year = invSeqVal b := by
      apply le_antisymm
      · apply foldl_max_le (Nat.zero_le _)
        intro x hx
        obtain ⟨sx, hsx, hxeq⟩ := List.mem_map.mp hx
        obtain ⟨hsxeq, hsx1, hsx2⟩ := hwf sx hsx
        have hlt := hball sx hsx
        rw [hbeq, hsxeq] at hlt
        have hiff := mkInvNum_lt year
          (show invSeqVal b < 10 ^ 6 by omega) (show invSeqVal sx < 10 ^ 6 by omega)
        have hnlt : ¬ (invSeqVal b < invSeqVal sx) := by
          rw [← hiff, hlt]
          simp
        omega
      · exact (foldl_max_ge _ 0).2 _ (List.mem_map_of_mem invSeqVal hbmem)
    have hp : parseTaxSeq b = some (invSeqVal b) :=
      (congrArg parseTaxSeq hbeq).trans (parseTaxSeq_mkInvNum hy1 hy2)
    rw [generateInvoiceNumber, hmax]
    dsimp only
    rw [hp]
    dsimp only
    rw [hseq]
  have hconj3 : ∀ i ∈ db.invoices, i.userId = u →
      i.invoiceNumber ≠ generateInvoiceNumber db u year := by
    intro i hi hiu hcontra
    by_cases hpfx : pfxMatch (pfxChars year) i.invoiceNumber.data = true
    · have hmem : i.invoiceNumber ∈ relevantNums db u year := by
        rw [relevantNums]
        exact List.mem_map_of_mem _ (List.mem_filter.mpr ⟨hi, by simp [hiu, hpfx]⟩)
      have hne : relevantNums db u year ≠ [] := by
        intro hc
        rw [hc] at hmem
        simp at hmem
      obtain ⟨hieq, hi1, hi2⟩ := hwf _ hmem
      have hgen := hconj2 hne
      have hile : invSeqVal i.invoiceNumber ≤ maxSeq db u year :=
        (foldl_max_ge _ 0).2 _ (List.mem_map_of_mem invSeqVal hmem)
      have hboth : invSeqVal i.invoiceNumber = maxSeq db u year + 1 := by
        have hp1 : parseTaxSeq i.invoiceNumber = some (invSeqVal i.invoiceNumber) :=
          (congrArg parseTaxSeq hieq).trans (parseTaxSeq_mkInvNum hy1 hy2)
        have hp2 : parseTaxSeq i.invoiceNumber = some (maxSeq db u year + 1) := by
          rw [hcontra, hgen]
          exact parseTaxSeq_mkInvNum hy1 hy2
        rw [hp1] at hp2
        exact Option.some.inj hp2
      omega
    · have hgenpfx : pfxMatch (pfxChars year)
          (generateInvoiceNumber db u year).data = true := by
        rw [generateInvoiceNumber]
        split
        · exact pfxMatch_append _ _
        · split
          · exact pfxMatch_append _ _
          · exact pfxMatch_append _ _
      rw [hcontra] at hpfx
      exact hpfx hgenpfx
  exact ⟨hconj1, hconj2, hconj3,
    gen_eq_of_relevantNums (relevantNums_cancel db invoiceId u2 u year)⟩

theorem invoice_numbering_witness :
    (1000 ≤ 2026 ∧ 2026 ≤ 9999) ∧
    (∀ s ∈ relevantNums exDb4 1 2026,
      s = mkInvNum 2026 (invSeqVal s) ∧ 1 ≤ invSeqVal s ∧ invSeqVal s ≤ 999998) ∧
    (relevantNums exDb4 1 2026 ≠ []) ∧
    (generateInvoiceNumber exDb4 1 2026 = mkInvNum 2026 (maxSeq exDb4 1 2026 + 1)) ∧
    (generateInvoiceNumber exDb4 1 2026 = "TAX-2026-000003") ∧
    (mkInvNum 2026 1 = "TAX-2026-000001") ∧
    ((exInvoice 1 (mkInvNum 2026 1) InvStatus.cancelled).invoiceNumber ≠
      generateInvoiceNumber exDb4 1 2026) ∧
    (generateInvoiceNumber (cancelFullTaxInvoice exDb4 1 1).2 1 2026 =
      generateInvoiceNumber exDb4 1 2026) := by
  have h := invoice_numbering exDb4 1 2026 1 1 (by omega) (by omega) (by decide)
  exact ⟨⟨by omega, by omega⟩, by decide, by decide, h.2.1 (by decide), by decide, by decide,
    h.2.2.1 (exInvoice 1 (mkInvNum 2026 1) InvStatus.cancelled)
      (List.mem_cons_self _ _) rfl,
    h.2.2.2⟩

theorem shiftClose_math_witness :
    (getOpenShiftToday exDb3 1 5 = some exShift3) ∧ (0 ≤ (1680 : ℚ)) ∧
    (∃ s' db', shiftClose exDb3 1 1680 none 100 5 = (.ok s', db') ∧
      s' ∈ db'.shifts ∧ s'.status = .closed ∧ s'.id = exShift3.id ∧
      s'.expectedCash =
        exShift3.openingCash +
          (getSalesSummaryForShift exDb3 1 exShift3.startTime 100).cashSales ∧
      s'.cashDifference =
        some (1680 -
          (exShift3.openingCash +
            (getSalesSummaryForShift exDb3 1 exShift3.startTime 100).cashSales)) ∧
      s'.totalSales =
        (getSalesSummaryForShift exDb3 1 exShift3.startTime 100).cashSales +
          (getSalesSummaryForShift exDb3 1 exShift3.startTime 100).creditSales ∧
      s'.actualCash = some 1680 ∧ s'.endTime = some 100) ∧
    (shiftClose exDb3 1 1680 none 100 5).1 = .ok exShift3' ∧
    exShift3'.expectedCash = 1700 ∧ exShift3'.cashDifference = some (-20) ∧
    exShift3'.totalSales = 1500 :=
  ⟨rfl, by norm_num,
    shiftClose_math exDb3 1 1680 none 100 5 exShift3 rfl (by norm_num),
    by norm_num +decide [shiftClose, getOpenShiftToday, getSalesSummaryForShift, findOneAndUpdate,
      exDb3, exShift3, exShift3', exSale, emptyDB],
    by decide, by decide, by decide⟩

end ThaiSmart
